import Mathlib

/-! # TwoBody: sphere tessellation, camera normalisation and model transforms

A shallow embedding of `src/TwoBody/main.cpp`.  C++ `int` values are modelled
as unbounded `Int` (the program runs the tessellation with both counts equal to
50; signed overflow is undefined behaviour and is not modelled).  C++ `float`
values are modelled as elements of a field `K` with exact arithmetic (infinities
and NaN are not modelled); the calls into the C maths library (`cos`,
`sin`, `sqrt`, the constant `M_PI`) are collected in a record `Libm K` that the
definitions take as a parameter.  Statements that need the values of `cos` and
`sin` are made over the real numbers, with `realLibm`.  Where a statement
depends on the rounding of a `float` operation (the yaw loops of
`Camera::update`, the closing angle `2 * M_PI` of the circle and of the sphere
seam), the rounding is made explicit with `round32` and the binary32 maths
library `floatLibm`.
-/

namespace TwoBody

/-! ## Numeric types -/

/-- The C maths library as used by the program: the constant `M_PI` and the
functions `cos`, `sin`, `sqrt` on the scalar type `K`. -/
structure Libm (K : Type) where
  /-- The constant `M_PI`. -/
  pi : K
  /-- The function `cos`. -/
  cos : K → K
  /-- The function `sin`. -/
  sin : K → K
  /-- The function `sqrt`. -/
  sqrt : K → K

/-- The maths library over the real numbers, with its exact functions. -/
noncomputable def realLibm : Libm ℝ where
  pi := Real.pi
  cos := Real.cos
  sin := Real.sin
  sqrt := Real.sqrt

/-- The type `glm::vec2`. -/
@[ext]
structure Vec2 (K : Type) where
  x : K
  y : K

/-- The type `glm::vec3`. -/
@[ext]
structure Vec3 (K : Type) where
  x : K
  y : K
  z : K

/-- The type `glm::vec4`. -/
@[ext]
structure Vec4 (K : Type) where
  x : K
  y : K
  z : K
  w : K

/-- The struct `TexturedVertex` (lines 206-217). -/
structure TexturedVertex (K : Type) where
  p : Vec3 K
  texp : Vec2 K

/-! ## Sphere::prepare, vertex generation (main.cpp lines 506-520) -/

section SphereVertices

variable {K : Type} [Field K]

/-- The vertex built by `vertices.emplace_back(...)` in the body of the inner
vertex loop (lines 509-518), for the loop variables `parallel_idx`,
`meridian_idx`. -/
def sphereVertex (L : Libm K) (parallel_count meridian_count parallel_idx meridian_idx : Int) :
    TexturedVertex K :=
  let latitude : K := -(L.pi / 2) + L.pi * (parallel_idx : K) / ((parallel_count - 1 : Int) : K)
  let longitude : K := L.pi * 2 * (meridian_idx : K) / ((meridian_count - 1 : Int) : K)
  { p := { x := L.cos latitude * L.sin longitude
           y := L.sin latitude
           z := L.cos latitude * L.cos longitude }
    texp := { x := (meridian_idx : K) / ((meridian_count - 1 : Int) : K)
              y := (parallel_idx : K) / ((parallel_count - 1 : Int) : K) } }

/-- Inner vertex loop: `for (meridian_idx; meridian_idx < meridian_count; meridian_idx++)`,
entered with the current value of `meridian_idx`. -/
def vertexMeridianLoop (L : Libm K) (parallel_count meridian_count parallel_idx : Int)
    (meridian_idx : Int) (vertices : List (TexturedVertex K)) : List (TexturedVertex K) :=
  if meridian_idx < meridian_count then
    vertexMeridianLoop L parallel_count meridian_count parallel_idx (meridian_idx + 1)
      (vertices ++ [sphereVertex L parallel_count meridian_count parallel_idx meridian_idx])
  else vertices
termination_by (meridian_count - meridian_idx).toNat
decreasing_by omega

/-- Outer vertex loop: `for (parallel_idx; parallel_idx < parallel_count; parallel_idx++)`,
entered with the current value of `parallel_idx`. -/
def vertexParallelLoop (L : Libm K) (parallel_count meridian_count : Int)
    (parallel_idx : Int) (vertices : List (TexturedVertex K)) : List (TexturedVertex K) :=
  if parallel_idx < parallel_count then
    vertexParallelLoop L parallel_count meridian_count (parallel_idx + 1)
      (vertexMeridianLoop L parallel_count meridian_count parallel_idx 0 vertices)
  else vertices
termination_by (parallel_count - parallel_idx).toNat
decreasing_by omega

/-- The vertex-generation loop nest of `Sphere::prepare` (lines 507-520), run on
the given contents of `vertices`. -/
def generateVertices (L : Libm K) (parallel_count meridian_count : Int)
    (vertices : List (TexturedVertex K)) : List (TexturedVertex K) :=
  vertexParallelLoop L parallel_count meridian_count 0 vertices

end SphereVertices

/-! ## Sphere::prepare, triangle generation (main.cpp lines 522-545) -/

/-- The lambda `combine_idx` of `Sphere::prepare`; `meridian_count` is the
static member the lambda reads. -/
def combine_idx (meridian_count parallel_idx meridian_idx : Int) : Int :=
  parallel_idx * meridian_count + meridian_idx

/-- The lambda `add_triangle` of `Sphere::prepare`: three `push_back` calls on
`vertex_indexes`. -/
def add_triangle (vertex_indexes : List Int) (a b c : Int) : List Int :=
  ((vertex_indexes ++ [a]) ++ [b]) ++ [c]

/-- Body of the inner triangle loop (lines 534-543). -/
def triangleBody (parallel_count meridian_count parallel_idx meridian_idx : Int)
    (vertex_indexes : List Int) : List Int :=
  let v00 := combine_idx meridian_count (parallel_idx + 0) (meridian_idx + 0)
  let v01 := combine_idx meridian_count (parallel_idx + 0) (meridian_idx + 1)
  let v10 := combine_idx meridian_count (parallel_idx + 1) (meridian_idx + 0)
  let v11 := combine_idx meridian_count (parallel_idx + 1) (meridian_idx + 1)
  let not_with_south_pole : Bool := decide (parallel_idx > 0)
  let not_with_north_pole : Bool := decide (parallel_idx < parallel_count - 2)
  let vertex_indexes1 :=
    if not_with_south_pole then add_triangle vertex_indexes v00 v01 v11 else vertex_indexes
  if not_with_north_pole then add_triangle vertex_indexes1 v00 v10 v11 else vertex_indexes1

/-- Inner triangle loop: `for (meridian_idx; meridian_idx + 1 < meridian_count; meridian_idx++)`,
entered with the current value of `meridian_idx`. -/
def triangleMeridianLoop (parallel_count meridian_count parallel_idx : Int)
    (meridian_idx : Int) (vertex_indexes : List Int) : List Int :=
  if meridian_idx + 1 < meridian_count then
    triangleMeridianLoop parallel_count meridian_count parallel_idx (meridian_idx + 1)
      (triangleBody parallel_count meridian_count parallel_idx meridian_idx vertex_indexes)
  else vertex_indexes
termination_by (meridian_count - meridian_idx).toNat
decreasing_by omega

/-- Outer triangle loop: `for (parallel_idx; parallel_idx + 1 < parallel_count; parallel_idx++)`,
entered with the current value of `parallel_idx`; each iteration runs the inner
loop from `meridian_idx = 0`. -/
def triangleParallelLoop (parallel_count meridian_count : Int)
    (parallel_idx : Int) (vertex_indexes : List Int) : List Int :=
  if parallel_idx + 1 < parallel_count then
    triangleParallelLoop parallel_count meridian_count (parallel_idx + 1)
      (triangleMeridianLoop parallel_count meridian_count parallel_idx 0 vertex_indexes)
  else vertex_indexes
termination_by (parallel_count - parallel_idx).toNat
decreasing_by omega

/-- The triangle-generation loop nest of `Sphere::prepare` (lines 532-545), run
on the given contents of `vertex_indexes`. -/
def generateTriangles (parallel_count meridian_count : Int)
    (vertex_indexes : List Int) : List Int :=
  triangleParallelLoop parallel_count meridian_count 0 vertex_indexes

/-- How `glDrawElements(GL_TRIANGLES, ...)` in `Sphere::draw` (line 610) reads
the index list: consecutive groups of three indices, one group per triangle. -/
def toTriangles : List Int → List (Int × Int × Int)
  | a :: b :: c :: rest => (a, b, c) :: toTriangles rest
  | _ => []

/-! ### Proof-side description of the emitted triangles -/

/-- The flat index list of a list of triangles. -/
def flatTri : List (Int × Int × Int) → List Int
  | [] => []
  | t :: ts => t.1 :: t.2.1 :: t.2.2 :: flatTri ts

/-- Triangles emitted for the quad `(parallel_idx, meridian_idx)`. -/
def quadTriangles (parallel_count meridian_count p m : Int) : List (Int × Int × Int) :=
  (if 0 < p then
    [(combine_idx meridian_count p m, combine_idx meridian_count p (m + 1),
      combine_idx meridian_count (p + 1) (m + 1))] else []) ++
  (if p < parallel_count - 2 then
    [(combine_idx meridian_count p m, combine_idx meridian_count (p + 1) m,
      combine_idx meridian_count (p + 1) (m + 1))] else [])

/-- Triangles of `n` consecutive quads of row `p`, starting at meridian `m`. -/
def rowTrianglesFrom (parallel_count meridian_count p : Int) : Int → Nat → List (Int × Int × Int)
  | _, 0 => []
  | m, n + 1 => quadTriangles parallel_count meridian_count p m ++
      rowTrianglesFrom parallel_count meridian_count p (m + 1) n

/-- Triangles of `n` consecutive rows starting at row `p`. -/
def rowsTrianglesFrom (parallel_count meridian_count : Int) : Int → Nat → List (Int × Int × Int)
  | _, 0 => []
  | p, n + 1 =>
      rowTrianglesFrom parallel_count meridian_count p 0 (meridian_count - 1).toNat ++
      rowsTrianglesFrom parallel_count meridian_count (p + 1) n

/-! ### Pole rows -/

/-- Index `i` belongs to row `r` of the vertex grid: it lies in the block
`r * meridian_count ≤ i < r * meridian_count + meridian_count` that
`combine_idx` assigns to `parallel_idx = r`. -/
def inRow (meridian_count r i : Int) : Bool :=
  decide (r * meridian_count ≤ i ∧ i < r * meridian_count + meridian_count)

/-- Number of corners of the triangle `t` whose index lies in row `r`. -/
def cornersInRow (meridian_count r : Int) (t : Int × Int × Int) : Nat :=
  (if inRow meridian_count r t.1 then 1 else 0) +
  (if inRow meridian_count r t.2.1 then 1 else 0) +
  (if inRow meridian_count r t.2.2 then 1 else 0)

section SphereGrid

variable {K : Type} [Field K]

/-- The vertex stored at position `i` of a row-major grid. -/
def gridVertex (L : Libm K) (pc mc : Int) (i : Nat) : TexturedVertex K :=
  sphereVertex L pc mc ((i : Int) / mc) ((i : Int) % mc)

end SphereGrid

/-! ## glm routines used by the program

The program calls these routines of the glm library, whose source is not part
of `src/`.  Each is written the way glm computes it (`func_common.inl`,
`func_geometric.inl`, `matrix_transform.inl`, `type_mat4x4.inl`), with exact
field arithmetic in place of `float`. -/

section GlmOrdered

variable {K : Type} [LinearOrderedField K]

/-- Modelled from the spec: `glm::min` is library code absent from `src/`; it is
the lower of its two arguments, computed as `(y < x) ? y : x`. -/
def glm_min (x y : K) : K := if y < x then y else x

/-- Modelled from the spec: `glm::max` is library code absent from `src/`; it is
the higher of its two arguments, computed as `(x < y) ? y : x`. -/
def glm_max (x y : K) : K := if x < y then y else x

/-- Modelled from the spec: `glm::clamp` is library code absent from `src/`; the
spec (4.2) says the camera clamps `distance` to `[1,30]` and `pitch` to
`[-81,81]` with it; glm computes `min(max(x, minVal), maxVal)`. -/
def glm_clamp (x minVal maxVal : K) : K := glm_min (glm_max x minVal) maxVal

end GlmOrdered

section GlmField

variable {K : Type} [Field K]

/-- Componentwise sum of two `glm::vec3`. -/
def Vec3.add (a b : Vec3 K) : Vec3 K := ⟨a.x + b.x, a.y + b.y, a.z + b.z⟩

/-- Componentwise difference of two `glm::vec3`. -/
def Vec3.sub (a b : Vec3 K) : Vec3 K := ⟨a.x - b.x, a.y - b.y, a.z - b.z⟩

/-- Unary minus on `glm::vec3`. -/
def Vec3.neg (a : Vec3 K) : Vec3 K := ⟨-a.x, -a.y, -a.z⟩

/-- The product `vec3 * scalar`. -/
def Vec3.smul (a : Vec3 K) (s : K) : Vec3 K := ⟨a.x * s, a.y * s, a.z * s⟩

/-- Componentwise sum of two `glm::vec4`. -/
def Vec4.add (a b : Vec4 K) : Vec4 K := ⟨a.x + b.x, a.y + b.y, a.z + b.z, a.w + b.w⟩

/-- The product `vec4 * scalar`. -/
def Vec4.smul (a : Vec4 K) (s : K) : Vec4 K := ⟨a.x * s, a.y * s, a.z * s, a.w * s⟩

/-- Modelled from the spec: `glm::radians` is library code absent from `src/`;
it converts degrees to radians, `degrees * (pi / 180)`. -/
def glm_radians (L : Libm K) (degrees : K) : K := degrees * (L.pi / 180)

/-- Modelled from the spec: `glm::dot` on `vec3` is library code absent from
`src/`; the scalar product. -/
def glm_dot (a b : Vec3 K) : K := a.x * b.x + a.y * b.y + a.z * b.z

/-- Modelled from the spec: `glm::cross` is library code absent from `src/`; the
spec (4.2) uses it for `right = worldUp × direction`, `up = direction × right`. -/
def glm_cross (a b : Vec3 K) : Vec3 K :=
  ⟨a.y * b.z - b.y * a.z, a.z * b.x - b.z * a.x, a.x * b.y - b.x * a.y⟩

/-- Modelled from the spec: `glm::inversesqrt` is library code absent from
`src/`; `1 / sqrt(x)`. -/
def glm_inversesqrt (L : Libm K) (x : K) : K := 1 / L.sqrt x

/-- Modelled from the spec: `glm::normalize` on `vec3` is library code absent
from `src/`; glm computes `v * inversesqrt(dot(v, v))`. -/
def glm_normalize (L : Libm K) (v : Vec3 K) : Vec3 K :=
  v.smul (glm_inversesqrt L (glm_dot v v))

/-- The type `glm::mat4`: four columns, `m[i]` being column `i`. -/
@[ext]
structure Mat4 (K : Type) where
  c0 : Vec4 K
  c1 : Vec4 K
  c2 : Vec4 K
  c3 : Vec4 K

/-- The matrix `glm::mat4(1.0f)`. -/
def Mat4.identity : Mat4 K :=
  ⟨⟨1, 0, 0, 0⟩, ⟨0, 1, 0, 0⟩, ⟨0, 0, 1, 0⟩, ⟨0, 0, 0, 1⟩⟩

/-- Modelled from the spec: the glm operator `mat4 * vec4` is library code
absent from `src/`; glm computes `(m[0]*v[0] + m[1]*v[1]) + (m[2]*v[2] + m[3]*v[3])`. -/
def Mat4.mulVec (m : Mat4 K) (v : Vec4 K) : Vec4 K :=
  ((m.c0.smul v.x).add (m.c1.smul v.y)).add ((m.c2.smul v.z).add (m.c3.smul v.w))

/-- Modelled from the spec: the glm operator `mat4 * mat4` is library code
absent from `src/`; column `j` of the product is
`a[0]*b[j][0] + a[1]*b[j][1] + a[2]*b[j][2] + a[3]*b[j][3]`. -/
def Mat4.mul (a b : Mat4 K) : Mat4 K :=
  let col (v : Vec4 K) : Vec4 K :=
    (((a.c0.smul v.x).add (a.c1.smul v.y)).add (a.c2.smul v.z)).add (a.c3.smul v.w)
  ⟨col b.c0, col b.c1, col b.c2, col b.c3⟩

/-- Modelled from the spec: `glm::translate(m, v)` is library code absent from
`src/`; the spec (4.3) says it right-multiplies the current matrix by the
elementary translation.  glm computes
`Result = m; Result[3] = m[0]*v[0] + m[1]*v[1] + m[2]*v[2] + m[3]`. -/
def glm_translate (m : Mat4 K) (v : Vec3 K) : Mat4 K :=
  { m with c3 := (((m.c0.smul v.x).add (m.c1.smul v.y)).add (m.c2.smul v.z)).add m.c3 }

/-- Modelled from the spec: `glm::scale(m, v)` is library code absent from
`src/`; the spec (4.3) says it right-multiplies the current matrix by the
elementary scaling.  glm computes
`Result[0] = m[0]*v[0]; Result[1] = m[1]*v[1]; Result[2] = m[2]*v[2]; Result[3] = m[3]`. -/
def glm_scale (m : Mat4 K) (v : Vec3 K) : Mat4 K :=
  ⟨m.c0.smul v.x, m.c1.smul v.y, m.c2.smul v.z, m.c3⟩

/-- Modelled from the spec: `glm::rotate(m, angle, v)` is library code absent
from `src/`; the spec (4.3) says it right-multiplies the current matrix by the
rotation by `angle` (radians) about the axis `v`.  glm builds the 3x3 block
`Rotate` from `c = cos(angle)`, `s = sin(angle)`, `axis = normalize(v)`,
`temp = (1 - c) * axis` and combines the first three columns of `m` with it;
the fourth column is kept. -/
def glm_rotate (L : Libm K) (m : Mat4 K) (angle : K) (v : Vec3 K) : Mat4 K :=
  let a := angle
  let c := L.cos a
  let s := L.sin a
  let axis := glm_normalize L v
  let temp : Vec3 K := ⟨(1 - c) * axis.x, (1 - c) * axis.y, (1 - c) * axis.z⟩
  let r00 := c + temp.x * axis.x
  let r01 := temp.x * axis.y + s * axis.z
  let r02 := temp.x * axis.z - s * axis.y
  let r10 := temp.y * axis.x - s * axis.z
  let r11 := c + temp.y * axis.y
  let r12 := temp.y * axis.z + s * axis.x
  let r20 := temp.z * axis.x + s * axis.y
  let r21 := temp.z * axis.y - s * axis.x
  let r22 := c + temp.z * axis.z
  { c0 := ((m.c0.smul r00).add (m.c1.smul r01)).add (m.c2.smul r02)
    c1 := ((m.c0.smul r10).add (m.c1.smul r11)).add (m.c2.smul r12)
    c2 := ((m.c0.smul r20).add (m.c1.smul r21)).add (m.c2.smul r22)
    c3 := m.c3 }

/-- Modelled from the spec: `glm::lookAt(eye, center, up)` (right-handed, the
glm default) is library code absent from `src/`; the spec (4.2) says the camera
returns a look-at view matrix from the eye toward `eye + direction`.  glm
computes `f = normalize(center - eye)`, `s = normalize(cross(f, up))`,
`u = cross(s, f)` and fills the matrix from them. -/
def glm_lookAt (L : Libm K) (eye center up : Vec3 K) : Mat4 K :=
  let f := glm_normalize L (center.sub eye)
  let s := glm_normalize L (glm_cross f up)
  let u := glm_cross s f
  { c0 := ⟨s.x, u.x, -f.x, 0⟩
    c1 := ⟨s.y, u.y, -f.y, 0⟩
    c2 := ⟨s.z, u.z, -f.z, 0⟩
    c3 := ⟨-glm_dot s eye, -glm_dot u eye, glm_dot f eye, 1⟩ }

end GlmField

/-! ## Camera (main.cpp lines 219-268) -/

/-- The data members of class `Camera`. -/
structure Camera (K : Type) where
  pos : Vec3 K
  front : Vec3 K
  right : Vec3 K
  up : Vec3 K
  pitch : K
  yaw : K
  distance : K
  fov : K

/-- The loop `while (yaw < 0) yaw += 360;` of `Camera::update` (line 240). -/
def yawWrapUp {K : Type} [LinearOrderedField K] [FloorRing K] (yaw : K) : K :=
  if yaw < 0 then yawWrapUp (yaw + 360) else yaw
termination_by (Int.toNat ⌈-yaw / 360⌉)
decreasing_by
  have h1 : -(yaw + 360) / 360 = -yaw / 360 - 1 := by ring
  have h2 : (0 : K) < -yaw / 360 := by
    apply div_pos <;> linarith
  rw [h1, Int.ceil_sub_one]
  have h3 : 0 < ⌈-yaw / 360⌉ := Int.ceil_pos.mpr h2
  omega

/-- The loop `while (yaw > 360) yaw -= 360;` of `Camera::update` (line 241). -/
def yawWrapDown {K : Type} [LinearOrderedField K] [FloorRing K] (yaw : K) : K :=
  if yaw > 360 then yawWrapDown (yaw - 360) else yaw
termination_by (Int.toNat ⌈yaw / 360⌉)
decreasing_by
  have h1 : (yaw - 360) / 360 = yaw / 360 - 1 := by ring
  have h2 : (0 : K) < yaw / 360 := by
    apply div_pos <;> linarith
  rw [h1, Int.ceil_sub_one]
  have h3 : 0 < ⌈yaw / 360⌉ := Int.ceil_pos.mpr h2
  omega

/-- The method `Camera::update` (lines 235-261): normalises the stored camera
parameters in place and recomputes `pos`, `front`, `right`, `up`. -/
def Camera.update {K : Type} [LinearOrderedField K] [FloorRing K]
    (L : Libm K) (cam : Camera K) : Camera K :=
  -- normalize camera params
  let distance := glm_clamp cam.distance 1.0 30.0
  let pitch := glm_clamp cam.pitch (-0.9 * 90.0) (0.9 * 90.0)
  let yaw := yawWrapDown (yawWrapUp cam.yaw)
  -- compute
  let rad_pitch := glm_radians L pitch
  let rad_yaw := glm_radians L yaw
  let direction := glm_normalize L
    ⟨L.cos rad_pitch * L.cos rad_yaw, L.sin rad_pitch, L.cos rad_pitch * L.sin rad_yaw⟩
  let pos := direction.neg.smul distance
  let worldUp : Vec3 K := ⟨0, 1, 0⟩
  let front := glm_normalize L direction
  let right := glm_cross worldUp direction
  let up := glm_cross direction right
  { pos := pos, front := front, right := right, up := up,
    pitch := pitch, yaw := yaw, distance := distance, fov := cam.fov }

/-- The method `Camera::viewTransform` (lines 263-267): calls `update()` and
returns the look-at matrix; the second component is the camera after the call. -/
def Camera.viewTransform {K : Type} [LinearOrderedField K] [FloorRing K]
    (L : Libm K) (cam : Camera K) : Mat4 K × Camera K :=
  let cam1 := cam.update L
  (glm_lookAt L cam1.pos (cam1.pos.add cam1.front) cam1.up, cam1)

/-! ## Per-frame update of the angles (main.cpp lines 834-841) -/

/-- The animation variables of `main` that the update step writes. -/
structure SceneAngles (K : Type) where
  earth_angle : K
  moon_angle : K
  moon_orbit_position : K

/-- The values read by one update step: the frame time and the three speeds. -/
structure FrameInput (K : Type) where
  executionDeltaTime : K
  earth_rotation_speed : K
  moon_rotation_speed : K
  moon_orbit_traverse_speed : K

/-- The `// update` block of the main loop (lines 835-841). -/
def updateAngles {K : Type} [LinearOrderedField K] (f : FrameInput K) (s : SceneAngles K) :
    SceneAngles K :=
  let earth_angle := s.earth_angle + f.executionDeltaTime * f.earth_rotation_speed
  let moon_angle := s.moon_angle + f.executionDeltaTime * f.moon_rotation_speed
  let earth_angle := if earth_angle > 360 then earth_angle - 360 else earth_angle
  let moon_angle := if moon_angle > 360 then moon_angle - 360 else moon_angle
  let moon_orbit_position :=
    s.moon_orbit_position + f.executionDeltaTime * f.moon_orbit_traverse_speed
  { earth_angle := earth_angle, moon_angle := moon_angle,
    moon_orbit_position := moon_orbit_position }

/-- The update block run once per frame, for the frames of the list in order. -/
def runFrames {K : Type} [LinearOrderedField K] (frames : List (FrameInput K))
    (s : SceneAngles K) : SceneAngles K :=
  frames.foldl (fun st f => updateAngles f st) s

/-! ## Model transforms of Sphere and PolyLine (main.cpp lines 315-343, 488-491, 579-601) -/

/-- The per-instance data members of class `Sphere`. -/
structure Sphere (K : Type) where
  modelTransform : Mat4 K
  r : K
  texture : Nat

/-- The per-instance data members of class `PolyLine`. -/
structure PolyLine (K : Type) where
  modelTransform : Mat4 K
  vertices : List (Vec3 K)
  color : Vec4 K

section Transforms

variable {K : Type} [Field K]

/-- The method `Sphere::center` (lines 488-491). -/
def Sphere.center (s : Sphere K) : Vec4 K :=
  let modelCenter : Vec4 K := ⟨0, 0, 0, 1⟩
  s.modelTransform.mulVec modelCenter

/-- The method `Sphere::resetTransform` (lines 585-589). -/
def Sphere.resetTransform (s : Sphere K) : Sphere K :=
  { s with modelTransform := Mat4.identity }

/-- The method `Sphere::translate` (lines 591-595). -/
def Sphere.translate (s : Sphere K) (v : Vec3 K) : Sphere K :=
  { s with modelTransform := glm_translate s.modelTransform v }

/-- The method `Sphere::rotate` (lines 597-601). -/
def Sphere.rotate (L : Libm K) (s : Sphere K) (angle : K) (axis : Vec3 K) : Sphere K :=
  { s with modelTransform := glm_rotate L s.modelTransform angle axis }

/-- The method `PolyLine::resetTransform` (lines 321-325). -/
def PolyLine.resetTransform (s : PolyLine K) : PolyLine K :=
  { s with modelTransform := Mat4.identity }

/-- The method `PolyLine::translate` (lines 327-331). -/
def PolyLine.translate (s : PolyLine K) (v : Vec3 K) : PolyLine K :=
  { s with modelTransform := glm_translate s.modelTransform v }

/-- The method `PolyLine::scale` (lines 333-337). -/
def PolyLine.scale (s : PolyLine K) (x y z : K) : PolyLine K :=
  { s with modelTransform := glm_scale s.modelTransform ⟨x, y, z⟩ }

/-- The method `PolyLine::rotate` (lines 339-343). -/
def PolyLine.rotate (L : Libm K) (s : PolyLine K) (angle : K) (axis : Vec3 K) : PolyLine K :=
  { s with modelTransform := glm_rotate L s.modelTransform angle axis }

end Transforms

/-! ## Names used in the statements -/

/-- The value `x` clamped to the interval `[lo, hi]`, as the spec words it:
values below `lo` become `lo`, values above `hi` become `hi`, values inside are
kept. -/
def clampSpec {K : Type} [LinearOrderedField K] (lo hi x : K) : K :=
  if x < lo then lo else if hi < x then hi else x

/-- The constructor `Camera::Camera(pitch, yaw, distance, fov)` (lines 231-233):
stores the four parameters and calls `update()`, which overwrites the four
vectors (left uninitialised by the constructor, zero here). -/
def Camera.new {K : Type} [LinearOrderedField K] [FloorRing K]
    (L : Libm K) (pitch yaw distance fov : K) : Camera K :=
  Camera.update L
    { pos := ⟨0, 0, 0⟩, front := ⟨0, 0, 0⟩, right := ⟨0, 0, 0⟩, up := ⟨0, 0, 0⟩,
      pitch := pitch, yaw := yaw, distance := distance, fov := fov }

/-- The point `p` in homogeneous coordinates, `vec4(p, 1)`. -/
def Vec3.toPoint {K : Type} [Field K] (p : Vec3 K) : Vec4 K := ⟨p.x, p.y, p.z, 1⟩

/-- The displacement `v` in homogeneous coordinates, `vec4(v, 0)`. -/
def Vec3.toDirection {K : Type} [Field K] (v : Vec3 K) : Vec4 K := ⟨v.x, v.y, v.z, 0⟩

/-- The sphere `earth` as constructed in `main` (line 806), texture handle 0. -/
def earth {K : Type} [Field K] : Sphere K := ⟨Mat4.identity, 1, 0⟩

/-- Position of the generated vertex that index `i` refers to. -/
def vertexPosition {K : Type} [Field K] (L : Libm K) (parallel_count meridian_count : Int)
    (i : Int) : Option (Vec3 K) :=
  ((generateVertices L parallel_count meridian_count [])[i.toNat]?).map (fun v => v.p)

/-- Two of the three corners of the triangle `t` lie at the point `P`. -/
def twoCornersAt {K : Type} (pos : Int → Option (Vec3 K)) (P : Vec3 K)
    (t : Int × Int × Int) : Prop :=
  (pos t.1 = some P ∧ pos t.2.1 = some P) ∨
  (pos t.1 = some P ∧ pos t.2.2 = some P) ∨
  (pos t.2.1 = some P ∧ pos t.2.2 = some P)

/-- The direction vector of the spec for the angles `pitch`, `yaw` given in
degrees: `(cos(pitch)cos(yaw), sin(pitch), cos(pitch)sin(yaw))`. -/
def sphericalDirection {K : Type} [Field K] (L : Libm K) (pitch yaw : K) : Vec3 K :=
  ⟨L.cos (glm_radians L pitch) * L.cos (glm_radians L yaw),
   L.sin (glm_radians L pitch),
   L.cos (glm_radians L pitch) * L.sin (glm_radians L yaw)⟩

/-! ## Per-frame transforms of the moon and its orbit (main.cpp lines 848-860) -/

section MoonTransforms

variable {K : Type} [Field K]

/-- The transform chain of `moon_orbit` (lines 848-852): reset, tilt by the
orbit pitch about X and by the orbit roll about Z, scale by the orbit radii. -/
def placeMoonOrbit (L : Libm K) (moon_orbit : PolyLine K)
    (moon_orbit_pitch moon_orbit_roll moon_orbit_radius_x moon_orbit_radius_z : K) :
    PolyLine K :=
  (((moon_orbit.resetTransform).rotate L (glm_radians L moon_orbit_pitch) ⟨1, 0, 0⟩).rotate L
    (glm_radians L moon_orbit_roll) ⟨0, 0, 1⟩).scale moon_orbit_radius_x 1 moon_orbit_radius_z

/-- The first three calls of the transform chain of `moon` (lines 855-857):
reset and the two tilt rotations. -/
def moonTilt (L : Libm K) (moon : Sphere K) (moon_orbit_pitch moon_orbit_roll : K) : Sphere K :=
  ((moon.resetTransform).rotate L (glm_radians L moon_orbit_pitch) ⟨1, 0, 0⟩).rotate L
    (glm_radians L moon_orbit_roll) ⟨0, 0, 1⟩

/-- The two chained `translate` calls of the transform chain of `moon`
(lines 858-859). -/
def moonOffset (L : Libm K) (moon : Sphere K)
    (moon_orbit_radius_x moon_orbit_radius_z moon_orbit_position : K) : Sphere K :=
  (moon.translate ⟨moon_orbit_radius_x * L.sin moon_orbit_position, 0, 0⟩).translate
    ⟨0, 0, moon_orbit_radius_z * L.cos moon_orbit_position⟩

/-- The transform chain of `moon` (lines 854-860): the tilt, the two
translations, then the spin rotation about `moon_rotation_axis`. -/
def placeMoon (L : Libm K) (moon : Sphere K)
    (moon_orbit_pitch moon_orbit_roll moon_orbit_radius_x moon_orbit_radius_z
      moon_orbit_position moon_angle : K) (moon_rotation_axis : Vec3 K) : Sphere K :=
  (moonOffset L (moonTilt L moon moon_orbit_pitch moon_orbit_roll)
    moon_orbit_radius_x moon_orbit_radius_z moon_orbit_position).rotate L
      (glm_radians L moon_angle) moon_rotation_axis

end MoonTransforms

/-- The sphere `moon` as constructed in `main` (line 807), texture handle 0. -/
def moon {K : Type} [Field K] : Sphere K := ⟨Mat4.identity, 1 / 2, 0⟩

/-- The polyline `moon_orbit` as constructed in `main` (line 816), before
`generateCircle` fills its vertices. -/
def moon_orbit {K : Type} [Field K] : PolyLine K := ⟨Mat4.identity, [], ⟨1 / 2, 1 / 2, 1, 1⟩⟩

/-! ## Sky backdrop view matrix (main.cpp lines 884-893) -/

/-- The type `glm::mat3`: three columns. -/
@[ext]
structure Mat3 (K : Type) where
  c0 : Vec3 K
  c1 : Vec3 K
  c2 : Vec3 K

section SkyView

variable {K : Type} [Field K]

/-- Modelled from the spec: the glm conversion `mat3(mat4)` is library code
absent from `src/`; it keeps the upper-left 3x3 block (the rotational part of
the view matrix, spec 4.5). -/
def glm_mat3_of_mat4 (m : Mat4 K) : Mat3 K :=
  ⟨⟨m.c0.x, m.c0.y, m.c0.z⟩, ⟨m.c1.x, m.c1.y, m.c1.z⟩, ⟨m.c2.x, m.c2.y, m.c2.z⟩⟩

/-- Modelled from the spec: the glm conversion `mat4(mat3)` is library code
absent from `src/`; it pads the 3x3 block with the identity. -/
def glm_mat4_of_mat3 (m : Mat3 K) : Mat4 K :=
  ⟨⟨m.c0.x, m.c0.y, m.c0.z, 0⟩, ⟨m.c1.x, m.c1.y, m.c1.z, 0⟩, ⟨m.c2.x, m.c2.y, m.c2.z, 0⟩,
    ⟨0, 0, 0, 1⟩⟩

/-- The view matrix of the sky draw, `glm::mat4(glm::mat3(viewTransform))`
(line 888). -/
def skyViewTransform (viewTransform : Mat4 K) : Mat4 K :=
  glm_mat4_of_mat3 (glm_mat3_of_mat4 viewTransform)

/-- The matrix `vertexTransform` of the sky draw (line 888):
`projTransform * glm::mat4(glm::mat3(viewTransform))`. -/
def skyVertexTransform (projTransform viewTransform : Mat4 K) : Mat4 K :=
  projTransform.mul (skyViewTransform viewTransform)

end SkyView

/-! ## PolyLine::generateCircle (main.cpp lines 305-313) -/

section GenerateCircle

variable {K : Type} [Field K]

/-- The point built by `vertices.emplace_back(...)` in the loop body of
`PolyLine::generateCircle` (lines 309-311) for the loop variable `i`. -/
def circlePoint (L : Libm K) (size i : Int) : Vec3 K :=
  let angle : K := 2 * L.pi * (i : K) / ((size - 1 : Int) : K)
  ⟨L.sin angle, 0, L.cos angle⟩

end GenerateCircle

/-! ## Shared resources: ShaderProgram and the three prepare() methods
(main.cpp lines 117-180, 287-303, 380-403, 499-577)

The OpenGL driver and the file system are outside the program.  The state of
the driver is modelled by the list of calls it has received together with
counters for the object names it has handed out; what the environment decides
(whether a file can be read, whether a shader compiles, whether a program
links) is collected in a record `Driver`. -/

/-- What the environment decides for the shader files at the given paths. -/
structure Driver where
  /-- The contents `readFromFile` returns for a path, `none` when it throws. -/
  readFromFile : String → Option String
  /-- The value of `GL_COMPILE_STATUS` after compiling the given source. -/
  compileStatus : String → Bool
  /-- The value of `GL_LINK_STATUS` for the program linked from the shaders at
  the two given paths. -/
  linkStatus : String → String → Bool

/-- The OpenGL calls made by the constructor of `ShaderProgram` and by the
`prepare` methods, with the arguments that identify the objects involved. -/
inductive GLCall where
  | createShader (shaderType shader : Nat)
  | shaderSource (shader : Nat) (source : String)
  | compileShader (shader : Nat)
  | createProgram (program : Nat)
  | attachShader (program shader : Nat)
  | linkProgram (program : Nat)
  | deleteShader (shader : Nat)
  | useProgram (program : Nat)
  | genBuffers (buffer : Nat)
  | genVertexArrays (vertexArray : Nat)
  | bindVertexArray (vertexArray : Nat)
  | bindArrayBuffer (buffer : Nat)
  | bindElementArrayBuffer (buffer : Nat)
  | arrayBufferData (byteSize : Nat)
  | elementArrayBufferData (byteSize : Nat)
  | vertexAttribPointer (index size stride offset : Nat)
  | enableVertexAttribArray (index : Nat)

/-- State of the OpenGL driver: the calls received so far, oldest first, and the
number of shaders, programs, buffers and vertex arrays created so far (object
names are handed out in order, starting at 1). -/
structure GLState where
  calls : List GLCall
  shaders : Nat
  programs : Nat
  buffers : Nat
  vertexArrays : Nat

/-- Records one call in the driver state. -/
def GLState.call (gl : GLState) (c : GLCall) : GLState := { gl with calls := gl.calls ++ [c] }

/-- The exceptions the preparation code throws. -/
inductive PrepareError where
  | failedToReadFile (path : String)
  | compilationFailed (shaderType : Nat)
  | linkingFailed

/-- The constant `GL_VERTEX_SHADER`. -/
def GL_VERTEX_SHADER : Nat := 0x8B31

/-- The constant `GL_FRAGMENT_SHADER`. -/
def GL_FRAGMENT_SHADER : Nat := 0x8B30

/-- The data members of class `ShaderProgram`. -/
structure ShaderProgram where
  id : Nat
  hollow : Bool

/-- The default constructor `ShaderProgram()` (lines 124-126), for an object of
static storage (members zero-initialised first). -/
def ShaderProgram.default : ShaderProgram := ⟨0, true⟩

/-- The method `ShaderProgram::loadAndCompileShader` (lines 152-176): returns
the driver state after the call and either the shader name or the exception
thrown. -/
def loadAndCompileShader (d : Driver) (gl : GLState) (sourcePath : String) (shaderType : Nat) :
    GLState × Except PrepareError Nat :=
  match d.readFromFile sourcePath with
  | none => (gl, Except.error (PrepareError.failedToReadFile sourcePath))
  | some source =>
    let shader := gl.shaders + 1
    let gl := { gl with shaders := shader }.call (GLCall.createShader shaderType shader)
    let gl := gl.call (GLCall.shaderSource shader source)
    let gl := gl.call (GLCall.compileShader shader)
    if !d.compileStatus source then
      (gl, Except.error (PrepareError.compilationFailed shaderType))
    else (gl, Except.ok shader)

/-- The constructor `ShaderProgram(vertexSourcePath, fragmentSourcePath)`
(lines 128-150): returns the driver state after the call and either the
constructed object or the exception thrown. -/
def ShaderProgram.new (d : Driver) (gl : GLState) (vertexSourcePath fragmentSourcePath : String) :
    GLState × Except PrepareError ShaderProgram :=
  match loadAndCompileShader d gl vertexSourcePath GL_VERTEX_SHADER with
  | (gl, Except.error e) => (gl, Except.error e)
  | (gl, Except.ok vertexShader) =>
    match loadAndCompileShader d gl fragmentSourcePath GL_FRAGMENT_SHADER with
    | (gl, Except.error e) => (gl, Except.error e)
    | (gl, Except.ok fragmentShader) =>
      let id := gl.programs + 1
      let gl := { gl with programs := id }.call (GLCall.createProgram id)
      let gl := gl.call (GLCall.attachShader id vertexShader)
      let gl := gl.call (GLCall.attachShader id fragmentShader)
      let gl := gl.call (GLCall.linkProgram id)
      if !d.linkStatus vertexSourcePath fragmentSourcePath then
        (gl, Except.error PrepareError.linkingFailed)
      else
        let gl := gl.call (GLCall.deleteShader vertexShader)
        let gl := gl.call (GLCall.deleteShader fragmentShader)
        (gl, Except.ok ⟨id, false⟩)

/-- The method `ShaderProgram::use` (lines 178-180). -/
def ShaderProgram.use (p : ShaderProgram) (gl : GLState) : GLState := gl.call (GLCall.useProgram p.id)

/-- The call `glGenBuffers(1, &name)`: the new driver state and the name. -/
def glGenBuffers (gl : GLState) : GLState × Nat :=
  ({ gl with buffers := gl.buffers + 1 }.call (GLCall.genBuffers (gl.buffers + 1)),
    gl.buffers + 1)

/-- The call `glGenVertexArrays(1, &name)`: the new driver state and the name. -/
def glGenVertexArrays (gl : GLState) : GLState × Nat :=
  ({ gl with vertexArrays := gl.vertexArrays + 1 }.call
      (GLCall.genVertexArrays (gl.vertexArrays + 1)),
    gl.vertexArrays + 1)

/-- The static data members of class `PolyLine` (lines 276-279). -/
structure PolyLineStatics where
  isPrepared : Bool
  shaderProgram : ShaderProgram
  vertex_buffer_obj : Nat
  vertex_array_obj : Nat

/-- The static data members of class `SkyBox` (lines 371-374); the constant
array `vertices` is not part of the mutable state. -/
structure SkyBoxStatics where
  isPrepared : Bool
  shaderProgram : ShaderProgram
  vertex_buffer_obj : Nat
  vertex_array_obj : Nat

/-- The static data members of class `Sphere` (lines 472-480). -/
structure SphereStatics (K : Type) where
  isPrepared : Bool
  vertices : List (TexturedVertex K)
  vertex_indexes : List Int
  parallel_count : Int
  meridian_count : Int
  shaderProgram : ShaderProgram
  vertex_buffer_obj : Nat
  vertex_array_obj : Nat
  element_buffer_obj : Nat

/-- The shared state the three `prepare` methods work on: the driver, the
global `resource_folder_dir` and the static members of the three classes. -/
structure World (K : Type) where
  gl : GLState
  resource_folder_dir : String
  polyLine : PolyLineStatics
  skyBox : SkyBoxStatics
  sphere : SphereStatics K

/-- Result of a call that may throw: the state it leaves behind and the
exception, if one was thrown. -/
structure Outcome (σ : Type) where
  state : σ
  threw : Option PrepareError

/-- The value of `sizeof(glm::vec3)`. -/
def sizeof_vec3 : Nat := 12

/-- The value of `sizeof(float)`. -/
def sizeof_float : Nat := 4

/-- The value of `sizeof(int)`. -/
def sizeof_int : Nat := 4

/-- The value of `sizeof(TexturedVertex)`. -/
def sizeof_TexturedVertex : Nat := 20

/-- The method `PolyLine::prepare` (lines 287-303). -/
def PolyLine.prepare {K : Type} (d : Driver) (w : World K) : Outcome (World K) :=
  if w.polyLine.isPrepared then ⟨w, none⟩
  else
    -- load shaders
    match ShaderProgram.new d w.gl (w.resource_folder_dir ++ "polyline.vs")
        (w.resource_folder_dir ++ "polyline.fs") with
    | (gl, Except.error e) => ⟨{ w with gl := gl }, some e⟩
    | (gl, Except.ok shaderProgram) =>
      -- prepare prog
      let gl := shaderProgram.use gl
      let (gl, vertex_buffer_obj) := glGenBuffers gl
      let (gl, vertex_array_obj) := glGenVertexArrays gl
      -- set prepared
      ⟨{ w with
          gl := gl
          polyLine :=
            { isPrepared := true, shaderProgram := shaderProgram,
              vertex_buffer_obj := vertex_buffer_obj, vertex_array_obj := vertex_array_obj } },
        none⟩

/-- The method `SkyBox::prepare` (lines 380-403). -/
def SkyBox.prepare {K : Type} (d : Driver) (w : World K) : Outcome (World K) :=
  if w.skyBox.isPrepared then ⟨w, none⟩
  else
    -- load shaders
    match ShaderProgram.new d w.gl (w.resource_folder_dir ++ "skybox.vs")
        (w.resource_folder_dir ++ "skybox.fs") with
    | (gl, Except.error e) => ⟨{ w with gl := gl }, some e⟩
    | (gl, Except.ok shaderProgram) =>
      -- prepare prog
      let gl := shaderProgram.use gl
      let (gl, vertex_buffer_obj) := glGenBuffers gl
      let (gl, vertex_array_obj) := glGenVertexArrays gl
      let gl := gl.call (GLCall.bindVertexArray vertex_array_obj)
      let gl := gl.call (GLCall.bindArrayBuffer vertex_buffer_obj)
      let gl := gl.call (GLCall.arrayBufferData (108 * sizeof_float))
      let gl := gl.call (GLCall.vertexAttribPointer 0 3 sizeof_vec3 0)
      let gl := gl.call (GLCall.enableVertexAttribArray 0)
      -- set prepared
      ⟨{ w with
          gl := gl
          skyBox :=
            { isPrepared := true, shaderProgram := shaderProgram,
              vertex_buffer_obj := vertex_buffer_obj, vertex_array_obj := vertex_array_obj } },
        none⟩

/-- The method `Sphere::prepare` (lines 499-577). -/
def Sphere.prepare {K : Type} [Field K] (L : Libm K) (d : Driver) (w : World K) :
    Outcome (World K) :=
  if w.sphere.isPrepared then ⟨w, none⟩
  else
    -- set parameters
    let parallel_count : Int := 50
    let meridian_count : Int := 50
    -- generate points
    let vertices := generateVertices L parallel_count meridian_count w.sphere.vertices
    -- generate triangles
    let vertex_indexes := generateTriangles parallel_count meridian_count w.sphere.vertex_indexes
    let sphere1 : SphereStatics K :=
      { w.sphere with
        parallel_count := parallel_count, meridian_count := meridian_count,
        vertices := vertices, vertex_indexes := vertex_indexes }
    -- load shader
    match ShaderProgram.new d w.gl (w.resource_folder_dir ++ "sphere.vs")
        (w.resource_folder_dir ++ "sphere.fs") with
    | (gl, Except.error e) => ⟨{ w with gl := gl, sphere := sphere1 }, some e⟩
    | (gl, Except.ok shaderProgram) =>
      -- prepare prog
      let gl := shaderProgram.use gl
      let (gl, vertex_buffer_obj) := glGenBuffers gl
      let (gl, vertex_array_obj) := glGenVertexArrays gl
      let gl := gl.call (GLCall.bindVertexArray vertex_array_obj)
      let gl := gl.call (GLCall.bindArrayBuffer vertex_buffer_obj)
      let gl := gl.call (GLCall.arrayBufferData (vertices.length * sizeof_TexturedVertex))
      let (gl, element_buffer_obj) := glGenBuffers gl
      let gl := gl.call (GLCall.bindElementArrayBuffer element_buffer_obj)
      let gl := gl.call (GLCall.elementArrayBufferData (vertex_indexes.length * sizeof_int))
      -- position attribute
      let gl := gl.call (GLCall.vertexAttribPointer 0 3 sizeof_TexturedVertex (0 * sizeof_float))
      let gl := gl.call (GLCall.enableVertexAttribArray 0)
      -- texture attrib
      let gl := gl.call (GLCall.vertexAttribPointer 1 2 sizeof_TexturedVertex (3 * sizeof_float))
      let gl := gl.call (GLCall.enableVertexAttribArray 1)
      -- set prepared
      ⟨{ w with
          gl := gl
          sphere :=
            { sphere1 with
              isPrepared := true, shaderProgram := shaderProgram,
              vertex_buffer_obj := vertex_buffer_obj, vertex_array_obj := vertex_array_obj,
              element_buffer_obj := element_buffer_obj } },
        none⟩

/-- The shared state at program start: no driver call made, static members
zero-initialised (`isPrepared` false, empty vectors, default `ShaderProgram`). -/
def World.initial (K : Type) (resource_folder_dir : String) : World K :=
  { gl := ⟨[], 0, 0, 0, 0⟩
    resource_folder_dir := resource_folder_dir
    polyLine := ⟨false, ShaderProgram.default, 0, 0⟩
    skyBox := ⟨false, ShaderProgram.default, 0, 0⟩
    sphere := ⟨false, [], [], 0, 0, ShaderProgram.default, 0, 0, 0⟩ }

/-- An environment in which every shader file is readable (with empty
contents), compiles and links. -/
def Driver.allGood : Driver :=
  { readFromFile := fun _ => some ""
    compileStatus := fun _ => true
    linkStatus := fun _ _ => true }

/-! ## Binary32 rounding

The program stores its angles, positions and camera parameters in `float`.
Where a claim depends on the rounding of a `float` operation, the operation is
modelled as the exact operation followed by `round32`, the IEEE 754 rounding to
the nearest binary32 value, ties to even (24-bit significand, gradual underflow
below `2^-126`; overflow to infinity is not modelled, the values involved are
far below `2^128`). -/

section Rounding

variable {K : Type} [LinearOrderedField K] [FloorRing K]

/-- The integer nearest to `q`, ties to the even neighbour. -/
def roundNearestEven (q : K) : Int :=
  if q - (⌊q⌋ : K) < 1 / 2 then ⌊q⌋
  else if 1 / 2 < q - (⌊q⌋ : K) then ⌊q⌋ + 1
  else if ⌊q⌋ % 2 = 0 then ⌊q⌋ else ⌊q⌋ + 1

/-- The binary32 value nearest to `x`, ties to even. -/
def round32 (x : K) : K :=
  if x = 0 then 0
  else
    ((roundNearestEven (x / (2 : K) ^ (max (Int.log 2 |x|) (-126) - 23)) : Int) : K) *
      (2 : K) ^ (max (Int.log 2 |x|) (-126) - 23)

end Rounding

/-! ## Camera yaw normalisation with float rounding (main.cpp lines 240-241) -/

section YawFloat

variable {K : Type} [LinearOrderedField K]

/-- The loop `while (yaw < 0) yaw += 360;` (line 240) with the rounding of the
`float` addition made explicit: `fl` is the rounding applied to the exact sum,
`fuel` bounds the number of iterations, `none` means the bound was reached. -/
def yawWrapUpFl (fl : K → K) : Nat → K → Option K
  | 0, yaw => if yaw < 0 then none else some yaw
  | fuel + 1, yaw => if yaw < 0 then yawWrapUpFl fl fuel (fl (yaw + 360)) else some yaw

/-- The loop `while (yaw > 360) yaw -= 360;` (line 241) with the rounding of
the `float` subtraction made explicit. -/
def yawWrapDownFl (fl : K → K) : Nat → K → Option K
  | 0, yaw => if yaw > 360 then none else some yaw
  | fuel + 1, yaw => if yaw > 360 then yawWrapDownFl fl fuel (fl (yaw - 360)) else some yaw

/-- Lines 240-241 of `Camera::update`: the two loops one after the other; the
result is the yaw the camera stores. -/
def normalizeYawFl (fl : K → K) (fuel : Nat) (yaw : K) : Option K :=
  (yawWrapUpFl fl fuel yaw).bind (yawWrapDownFl fl fuel)

end YawFloat

/-- The maths library in binary32, for the statements that depend on rounding:
`pi` is `M_PI` as it reaches a `float` variable (the binary32 value
`13176795 / 2^22` of pi; the closing angle `2 * M_PI` stored in a `float` is
twice that), and `cos`, `sin`, `sqrt` return the binary32 value nearest to the
exact result, as `cosf`, `sinf`, `sqrtf` do up to the last bit. -/
noncomputable def floatLibm : Libm ℝ where
  pi := 13176795 / 4194304
  cos := fun x => round32 (Real.cos x)
  sin := fun x => round32 (Real.sin x)
  sqrt := fun x => round32 (Real.sqrt x)

/-- The latitude of the row `parallel_idx`, as `Sphere::prepare` computes it
(line 509). -/
def rowLatitude {K : Type} [Field K] (L : Libm K) (parallel_count parallel_idx : Int) : K :=
  -(L.pi / 2) + L.pi * (parallel_idx : K) / ((parallel_count - 1 : Int) : K)

/-! ## Elementary transforms, as named in the statements -/

section Elementary

variable {K : Type} [Field K]

/-- The elementary translation by `v`: the identity with fourth column `(v, 1)`. -/
def translationMatrix (v : Vec3 K) : Mat4 K :=
  ⟨⟨1, 0, 0, 0⟩, ⟨0, 1, 0, 0⟩, ⟨0, 0, 1, 0⟩, ⟨v.x, v.y, v.z, 1⟩⟩

/-- The elementary scaling by `(x, y, z)`: the diagonal matrix `diag(x, y, z, 1)`. -/
def scalingMatrix (x y z : K) : Mat4 K :=
  ⟨⟨x, 0, 0, 0⟩, ⟨0, y, 0, 0⟩, ⟨0, 0, z, 0⟩, ⟨0, 0, 0, 1⟩⟩

/-- The rotation of the vector `p` about the unit axis `n` by the angle whose
cosine and sine are `c` and `s` (Rodrigues' formula):
`c p + (1 - c) (n . p) n + s (n x p)`. -/
def rotateAbout (c s : K) (n p : Vec3 K) : Vec3 K :=
  ((p.smul c).add (n.smul ((1 - c) * glm_dot n p))).add ((glm_cross n p).smul s)

/-- The elementary rotation: the linear map `rotateAbout c s n` as a 4x4 matrix
(its columns are the images of the three unit vectors). -/
def rotationMatrix (c s : K) (n : Vec3 K) : Mat4 K :=
  ⟨(rotateAbout c s n ⟨1, 0, 0⟩).toDirection, (rotateAbout c s n ⟨0, 1, 0⟩).toDirection,
    (rotateAbout c s n ⟨0, 0, 1⟩).toDirection, ⟨0, 0, 0, 1⟩⟩

end Elementary

/-! # Theorems -/

/-! ### Triangle generation -/

theorem flatTri_append (xs ys : List (Int × Int × Int)) :
    flatTri (xs ++ ys) = flatTri xs ++ flatTri ys := by
  induction xs with
  | nil => rfl
  | cons t ts ih => simp [flatTri, ih]

theorem flatTri_length (xs : List (Int × Int × Int)) :
    (flatTri xs).length = 3 * xs.length := by
  induction xs with
  | nil => rfl
  | cons t ts ih => simp [flatTri, ih]; omega

theorem toTriangles_flatTri (xs : List (Int × Int × Int)) :
    toTriangles (flatTri xs) = xs := by
  induction xs with
  | nil => rfl
  | cons t ts ih => simp [flatTri, toTriangles, ih]

theorem triangleBody_eq (pc mc p m : Int) (idx : List Int) :
    triangleBody pc mc p m idx = idx ++ flatTri (quadTriangles pc mc p m) := by
  unfold triangleBody quadTriangles add_triangle
  by_cases h1 : 0 < p <;> by_cases h2 : p < pc - 2 <;> simp [h1, h2, flatTri]

theorem triangleMeridianLoop_eq (pc mc p : Int) (n : Nat) :
    ∀ (m : Int) (idx : List Int), (mc - 1 - m).toNat = n →
      triangleMeridianLoop pc mc p m idx =
        idx ++ flatTri (rowTrianglesFrom pc mc p m n) := by
  induction n with
  | zero =>
    intro m idx h
    rw [triangleMeridianLoop]
    have : ¬ (m + 1 < mc) := by omega
    simp [this, rowTrianglesFrom, flatTri]
  | succ n ih =>
    intro m idx h
    rw [triangleMeridianLoop]
    have : m + 1 < mc := by omega
    simp only [this, if_true]
    rw [ih (m + 1) _ (by omega), triangleBody_eq, rowTrianglesFrom, flatTri_append,
      List.append_assoc]

theorem triangleParallelLoop_eq (pc mc : Int) (n : Nat) :
    ∀ (p : Int) (idx : List Int), (pc - 1 - p).toNat = n →
      triangleParallelLoop pc mc p idx =
        idx ++ flatTri (rowsTrianglesFrom pc mc p n) := by
  induction n with
  | zero =>
    intro p idx h
    rw [triangleParallelLoop]
    have : ¬ (p + 1 < pc) := by omega
    simp [this, rowsTrianglesFrom, flatTri]
  | succ n ih =>
    intro p idx h
    rw [triangleParallelLoop]
    have : p + 1 < pc := by omega
    simp only [this, if_true]
    rw [ih (p + 1) _ (by omega), triangleMeridianLoop_eq pc mc p (mc - 1).toNat 0 idx (by rw [sub_zero]),
      rowsTrianglesFrom, flatTri_append, List.append_assoc]

theorem generateTriangles_eq (pc mc : Int) (idx : List Int) :
    generateTriangles pc mc idx =
      idx ++ flatTri (rowsTrianglesFrom pc mc 0 (pc - 1).toNat) := by
  unfold generateTriangles
  exact triangleParallelLoop_eq pc mc (pc - 1).toNat 0 idx (by rw [sub_zero])

theorem quadTriangles_length (pc mc p m : Int) :
    (quadTriangles pc mc p m).length =
      (if 0 < p then 1 else 0) + (if p < pc - 2 then 1 else 0) := by
  unfold quadTriangles
  by_cases h1 : 0 < p <;> by_cases h2 : p < pc - 2 <;> simp [h1, h2]

theorem rowTrianglesFrom_length (pc mc p : Int) (n : Nat) :
    ∀ m : Int, (rowTrianglesFrom pc mc p m n).length =
      n * ((if 0 < p then 1 else 0) + (if p < pc - 2 then 1 else 0)) := by
  induction n with
  | zero => intro m; simp [rowTrianglesFrom]
  | succ n ih =>
    intro m
    rw [rowTrianglesFrom, List.length_append, ih, quadTriangles_length]
    ring

/-- Rows `p .. parallel_count - 2` with `p ≥ 1`: every row but the last emits
two triangles per quad, the last row one. -/
theorem rowsTrianglesFrom_length_upper (pc mc : Int) (n : Nat) :
    ∀ p : Int, 1 ≤ p → p + (n + 1 : Nat) = pc - 1 →
      (rowsTrianglesFrom pc mc p (n + 1)).length = (2 * n + 1) * (mc - 1).toNat := by
  induction n with
  | zero =>
    intro p hp hn
    have h1 : 0 < p := by omega
    have h2 : ¬ (p < pc - 2) := by omega
    simp [rowsTrianglesFrom, rowTrianglesFrom_length, h1, h2]
  | succ n ih =>
    intro p hp hn
    have h1 : 0 < p := by omega
    have h2 : p < pc - 2 := by omega
    rw [rowsTrianglesFrom, List.length_append, ih (p + 1) (by omega) (by omega),
      rowTrianglesFrom_length]
    simp only [h1, h2, if_true]
    ring

theorem rowsTrianglesFrom_length (pc mc : Int) (hp : 3 ≤ pc) :
    (rowsTrianglesFrom pc mc 0 (pc - 1).toNat).length =
      2 * (pc - 2).toNat * (mc - 1).toNat := by
  obtain ⟨k, hk⟩ : ∃ k : Nat, (pc - 1).toNat = k + 2 := ⟨(pc - 3).toNat, by omega⟩
  have h2 : (0 : Int) < pc - 2 := by omega
  have h3 : (pc - 2).toNat = k + 1 := by omega
  rw [hk, rowsTrianglesFrom, List.length_append,
    rowsTrianglesFrom_length_upper pc mc k (0 + 1) (by omega) (by omega),
    rowTrianglesFrom_length, h3]
  simp only [h2, lt_irrefl, if_true, if_false]
  ring

theorem generateTriangles_length (pc mc : Int) (hp : 3 ≤ pc) (idx : List Int) :
    (generateTriangles pc mc idx).length =
      idx.length + 3 * (2 * (pc - 2).toNat * (mc - 1).toNat) := by
  rw [generateTriangles_eq, List.length_append, flatTri_length,
    rowsTrianglesFrom_length pc mc hp]

/-- C1 (as stated, refuted): for `parallel_count = meridian_count = 3` the loop
emits 12 indices, while the claimed closed form
`3 * (2*(parallelCount-2) + 2) * (meridianCount-1)` gives 24. -/
theorem generateTriangles_count_counterexample :
    (generateTriangles 3 3 []).length = 12 ∧
      ((generateTriangles 3 3 []).length : Int) ≠ 3 * (2 * (3 - 2) + 2) * (3 - 1) := by
  have h : (generateTriangles 3 3 []).length = 12 := by
    rw [generateTriangles_eq]; decide
  exact ⟨h, by rw [h]; decide⟩

/-- C1 (amended): for `parallelCount ≥ 3` and `meridianCount ≥ 3` the
triangle-generation loop of `Sphere::prepare`, run on an empty index list, emits
exactly `3 * (2*(parallelCount-2)) * (meridianCount-1)` indices. -/
theorem generateTriangles_count (parallelCount meridianCount : Int)
    (hp : 3 ≤ parallelCount) (hm : 3 ≤ meridianCount) :
    ((generateTriangles parallelCount meridianCount []).length : Int) =
      3 * (2 * (parallelCount - 2)) * (meridianCount - 1) := by
  rw [generateTriangles_length parallelCount meridianCount hp]
  have h1 : (((parallelCount - 2).toNat : Nat) : Int) = parallelCount - 2 :=
    Int.toNat_of_nonneg (by omega)
  have h2 : (((meridianCount - 1).toNat : Nat) : Int) = meridianCount - 1 :=
    Int.toNat_of_nonneg (by omega)
  push_cast
  rw [h1, h2]
  simp only [List.length_nil, Nat.cast_zero, zero_add]
  ring

/-- Witness for the amended C1 at the program's own counts, 50 by 50. -/
theorem generateTriangles_count_witness :
    (3 : Int) ≤ 50 ∧ (3 : Int) ≤ 50 ∧
      ((generateTriangles 50 50 []).length : Int) = 3 * (2 * (50 - 2)) * (50 - 1) :=
  ⟨by decide, by decide, generateTriangles_count 50 50 (by decide) (by decide)⟩

theorem inRow_combine_idx (mc r q k : Int) (hk0 : 0 ≤ k) (hk : k < mc) :
    inRow mc r (combine_idx mc q k) = decide (q = r) := by
  unfold inRow combine_idx
  rcases lt_trichotomy q r with h | h | h
  · have h1 : (q + 1) * mc ≤ r * mc :=
      mul_le_mul_of_nonneg_right (by omega) (by omega)
    have h2 : ¬ (r * mc ≤ q * mc + k) := by nlinarith
    simp [h2, h.ne]
  · subst h
    simp [hk0, hk]
  · have h1 : (r + 1) * mc ≤ q * mc :=
      mul_le_mul_of_nonneg_right (by omega) (by omega)
    have h2 : ¬ (q * mc + k < r * mc + mc) := by nlinarith
    simp [h2, h.ne']

theorem mem_rowTrianglesFrom (pc mc p : Int) (n : Nat) :
    ∀ (m : Int) (t : Int × Int × Int), t ∈ rowTrianglesFrom pc mc p m n →
      ∃ k : Int, m ≤ k ∧ k < m + n ∧ t ∈ quadTriangles pc mc p k := by
  induction n with
  | zero => intro m t h; simp [rowTrianglesFrom] at h
  | succ n ih =>
    intro m t h
    rw [rowTrianglesFrom, List.mem_append] at h
    rcases h with h | h
    · exact ⟨m, le_refl _, by push_cast; omega, h⟩
    · obtain ⟨k, h1, h2, h3⟩ := ih (m + 1) t h
      exact ⟨k, by omega, by push_cast; omega, h3⟩

theorem mem_rowsTrianglesFrom (pc mc : Int) (n : Nat) :
    ∀ (p : Int) (t : Int × Int × Int), t ∈ rowsTrianglesFrom pc mc p n →
      ∃ q k : Int, p ≤ q ∧ q < p + n ∧ 0 ≤ k ∧ k < mc - 1 ∧
        t ∈ quadTriangles pc mc q k := by
  induction n with
  | zero => intro p t h; simp [rowsTrianglesFrom] at h
  | succ n ih =>
    intro p t h
    rw [rowsTrianglesFrom, List.mem_append] at h
    rcases h with h | h
    · obtain ⟨k, h1, h2, h3⟩ := mem_rowTrianglesFrom pc mc p _ 0 t h
      refine ⟨p, k, le_refl _, by push_cast; omega, h1, ?_, h3⟩
      have : (((mc - 1).toNat : Nat) : Int) ≤ max (mc - 1) 0 := by
        rw [Int.toNat_eq_max]
      rcases le_total (mc - 1) 0 with h0 | h0
      · rw [Int.toNat_of_nonpos h0] at h2; omega
      · rw [Int.toNat_of_nonneg h0] at h2; omega
    · obtain ⟨q, k, h1, h2, h3⟩ := ih (p + 1) t h
      exact ⟨q, k, by omega, by push_cast; omega, h3⟩

/-- Every triangle read from the generated index list comes from a quad
`(q, k)` of the grid, and is one of the two triangles of that quad, emitted
under the skip rule. -/
theorem mem_toTriangles_generateTriangles (pc mc : Int) (t : Int × Int × Int)
    (h : t ∈ toTriangles (generateTriangles pc mc [])) :
    ∃ q k : Int, 0 ≤ q ∧ q < pc - 1 ∧ 0 ≤ k ∧ k < mc - 1 ∧
      ((0 < q ∧ t = (combine_idx mc q k, combine_idx mc q (k + 1),
          combine_idx mc (q + 1) (k + 1))) ∨
       (q < pc - 2 ∧ t = (combine_idx mc q k, combine_idx mc (q + 1) k,
          combine_idx mc (q + 1) (k + 1)))) := by
  rw [generateTriangles_eq, List.nil_append, toTriangles_flatTri] at h
  obtain ⟨q, k, h1, h2, h3, h4, h5⟩ := mem_rowsTrianglesFrom pc mc _ 0 t h
  refine ⟨q, k, h1, ?_, h3, h4, ?_⟩
  · rcases le_total (pc - 1) 0 with h0 | h0
    · rw [Int.toNat_of_nonpos h0] at h2; omega
    · rw [Int.toNat_of_nonneg h0] at h2; omega
  · unfold quadTriangles at h5
    rw [List.mem_append] at h5
    rcases h5 with h5 | h5
    · left
      by_cases hq : 0 < q
      · simp [hq] at h5; exact ⟨hq, h5⟩
      · simp [hq] at h5
    · right
      by_cases hq : q < pc - 2
      · simp [hq] at h5; exact ⟨hq, h5⟩
      · simp [hq] at h5

/-- Every triangle read from the generated index list has at most one corner
in row 0 and at most one corner in the last row. -/
theorem cornersInRow_pole_le_one (parallelCount meridianCount : Int) (t : Int × Int × Int)
    (ht : t ∈ toTriangles (generateTriangles parallelCount meridianCount [])) :
    cornersInRow meridianCount 0 t ≤ 1 ∧
    cornersInRow meridianCount (parallelCount - 1) t ≤ 1 := by
  obtain ⟨q, k, hq0, hq, hk0, hk, h⟩ :=
    mem_toTriangles_generateTriangles parallelCount meridianCount t ht
  rcases h with ⟨h1, rfl⟩ | ⟨h1, rfl⟩
  · simp only [cornersInRow]
    rw [inRow_combine_idx _ _ _ _ hk0 (by omega), inRow_combine_idx _ _ _ _ (by omega) (by omega),
      inRow_combine_idx _ _ _ _ (by omega) (by omega),
      inRow_combine_idx _ _ _ _ hk0 (by omega), inRow_combine_idx _ _ _ _ (by omega) (by omega),
      inRow_combine_idx _ _ _ _ (by omega) (by omega)]
    have a1 : ¬ (q = 0) := by omega
    have a2 : ¬ (q + 1 = 0) := by omega
    have a3 : ¬ (q = parallelCount - 1) := by omega
    simp [a1, a2, a3]
    split <;> simp
  · simp only [cornersInRow]
    rw [inRow_combine_idx _ _ _ _ hk0 (by omega), inRow_combine_idx _ _ _ _ hk0 (by omega),
      inRow_combine_idx _ _ _ _ (by omega) (by omega),
      inRow_combine_idx _ _ _ _ hk0 (by omega), inRow_combine_idx _ _ _ _ hk0 (by omega),
      inRow_combine_idx _ _ _ _ (by omega) (by omega)]
    have a1 : ¬ (q + 1 = 0) := by omega
    have a2 : ¬ (q = parallelCount - 1) := by omega
    have a3 : ¬ (q + 1 = parallelCount - 1) := by omega
    simp [a1, a2, a3]
    split <;> simp

/-! ### Vertex generation -/

section SphereVertexProofs

variable {K : Type} [Field K]

theorem gridVertex_combine (L : Libm K) (pc mc q k : Int) (hq : 0 ≤ q) (hk0 : 0 ≤ k)
    (hk : k < mc) :
    gridVertex L pc mc (q * mc + k).toNat = sphereVertex L pc mc q k := by
  have hmc : 0 < mc := by omega
  have hnn : 0 ≤ q * mc + k := by positivity
  unfold gridVertex
  rw [Int.toNat_of_nonneg hnn]
  have h1 : (q * mc + k) / mc = q := by
    rw [add_comm, Int.add_mul_ediv_right _ _ hmc.ne', Int.ediv_eq_zero_of_lt hk0 hk, zero_add]
  have h2 : (q * mc + k) % mc = k := by
    rw [add_comm, Int.add_mul_emod_self, Int.emod_eq_of_lt hk0 hk]
  rw [h1, h2]

theorem vertexMeridianLoop_eq (L : Libm K) (pc mc p : Int) (hp : 0 ≤ p) (n : Nat) :
    ∀ (m : Int) (vs : List (TexturedVertex K)), (mc - m).toNat = n → 0 ≤ m → m ≤ mc →
      vs = (List.range (p * mc + m).toNat).map (gridVertex L pc mc) →
      vertexMeridianLoop L pc mc p m vs =
        (List.range (p * mc + mc).toNat).map (gridVertex L pc mc) := by
  induction n with
  | zero =>
    intro m vs h h0 hle hvs
    rw [vertexMeridianLoop]
    have : ¬ (m < mc) := by omega
    have hm : m = mc := by omega
    simp only [this, if_false]
    rw [hvs, hm]
  | succ n ih =>
    intro m vs h h0 hle hvs
    rw [vertexMeridianLoop]
    have hlt : m < mc := by omega
    simp only [hlt, if_true]
    apply ih (m + 1) _ (by omega) (by omega) (by omega)
    have hnn : 0 ≤ p * mc + m := add_nonneg (mul_nonneg hp (by omega)) h0
    have e : (p * mc + (m + 1)).toNat = (p * mc + m).toNat + 1 := by omega
    rw [e, List.range_succ, List.map_append, hvs, List.map_singleton,
      gridVertex_combine L pc mc p m hp h0 hlt]

theorem vertexParallelLoop_eq (L : Libm K) (pc mc : Int) (hmc : 0 ≤ mc) (n : Nat) :
    ∀ (p : Int) (vs : List (TexturedVertex K)), (pc - p).toNat = n → 0 ≤ p → p ≤ pc →
      vs = (List.range (p * mc).toNat).map (gridVertex L pc mc) →
      vertexParallelLoop L pc mc p vs =
        (List.range (pc * mc).toNat).map (gridVertex L pc mc) := by
  induction n with
  | zero =>
    intro p vs h h0 hle hvs
    rw [vertexParallelLoop]
    have : ¬ (p < pc) := by omega
    have hp : p = pc := by omega
    simp only [this, if_false]
    rw [hvs, hp]
  | succ n ih =>
    intro p vs h h0 hle hvs
    rw [vertexParallelLoop]
    have hlt : p < pc := by omega
    simp only [hlt, if_true]
    apply ih (p + 1) _ (by omega) (by omega) (by omega)
    rw [vertexMeridianLoop_eq L pc mc p h0 (mc - 0).toNat 0 vs rfl (le_refl _) hmc
      (by rw [add_zero]; exact hvs)]
    congr 3
    ring

theorem generateVertices_eq (L : Libm K) (pc mc : Int) (hpc : 0 ≤ pc) (hmc : 0 ≤ mc) :
    generateVertices L pc mc [] =
      (List.range (pc * mc).toNat).map (gridVertex L pc mc) := by
  unfold generateVertices
  exact vertexParallelLoop_eq L pc mc hmc (pc - 0).toNat 0 [] rfl (le_refl _) hpc (by simp)

theorem generateVertices_length (L : Libm K) (pc mc : Int) (hpc : 0 ≤ pc) (hmc : 0 ≤ mc) :
    ((generateVertices L pc mc []).length : Int) = pc * mc := by
  rw [generateVertices_eq L _ _ hpc hmc, List.length_map, List.length_range,
    Int.toNat_of_nonneg (mul_nonneg hpc hmc)]

theorem generateVertices_getElem (L : Libm K) (pc mc q k : Int)
    (hq0 : 0 ≤ q) (hq : q < pc) (hk0 : 0 ≤ k) (hk : k < mc) :
    (generateVertices L pc mc [])[(q * mc + k).toNat]? = some (sphereVertex L pc mc q k) := by
  rw [generateVertices_eq L _ _ (by omega) (by omega)]
  have hlt : (q * mc + k).toNat < (pc * mc).toNat := by
    have h1 : (q + 1) * mc ≤ pc * mc := mul_le_mul_of_nonneg_right (by omega) (by omega)
    have h2 : 0 ≤ q * mc + k := add_nonneg (mul_nonneg hq0 (by omega)) hk0
    have h3 : q * mc + k < pc * mc := by nlinarith
    omega
  rw [List.getElem?_map, List.getElem?_range hlt, Option.map_some',
    gridVertex_combine L _ _ q k hq0 hk0 hk]

/-- C2: for `parallelCount ≥ 3` and `meridianCount ≥ 3` the vertex-generation
loop of `Sphere::prepare`, run on an empty vertex list, produces exactly
`parallelCount * meridianCount` vertices, and the vertex built for
`(parallel, meridian)` is stored at position `parallel * meridianCount + meridian`. -/
theorem generateVertices_row_major (L : Libm K) (parallelCount meridianCount : Int)
    (hp : 3 ≤ parallelCount) (hm : 3 ≤ meridianCount) :
    ((generateVertices L parallelCount meridianCount []).length : Int) =
        parallelCount * meridianCount ∧
    ∀ parallel meridian : Int, 0 ≤ parallel → parallel < parallelCount →
      0 ≤ meridian → meridian < meridianCount →
      (generateVertices L parallelCount meridianCount [])[
          (parallel * meridianCount + meridian).toNat]? =
        some (sphereVertex L parallelCount meridianCount parallel meridian) :=
  ⟨generateVertices_length L _ _ (by omega) (by omega),
    fun q k hq0 hq hk0 hk => generateVertices_getElem L _ _ q k hq0 hq hk0 hk⟩

end SphereVertexProofs

/-- Witness for C2 at the program's own counts, 50 by 50, over the reals, for the vertex of `parallel = 1`, `meridian = 2`. -/
theorem generateVertices_row_major_witness :
    (3 : Int) ≤ 50 ∧ (3 : Int) ≤ 50 ∧
      ((generateVertices realLibm 50 50 []).length : Int) = 50 * 50 ∧
      (generateVertices realLibm 50 50 [])[(1 * 50 + 2 : Int).toNat]? =
        some (sphereVertex realLibm 50 50 1 2) :=
  ⟨by decide, by decide,
    (generateVertices_row_major realLibm 50 50 (by decide) (by decide)).1,
    (generateVertices_row_major realLibm 50 50 (by decide) (by decide)).2 1 2
      (by decide) (by decide) (by decide) (by decide)⟩

/-! ### Pole points -/

theorem vertexPosition_combine_idx {K : Type} [Field K] (L : Libm K) (pc mc q k : Int)
    (hq0 : 0 ≤ q) (hq : q < pc) (hk0 : 0 ≤ k) (hk : k < mc) :
    vertexPosition L pc mc (combine_idx mc q k) = some (sphereVertex L pc mc q k).p := by
  unfold vertexPosition combine_idx
  rw [generateVertices_getElem L pc mc q k hq0 hq hk0 hk, Option.map_some']

theorem sphereVertex_south (pc mc k : Int) :
    (sphereVertex realLibm pc mc 0 k).p = ⟨0, -1, 0⟩ := by
  simp [sphereVertex, realLibm]

theorem sphereVertex_north (pc mc k : Int) (hp : 3 ≤ pc) :
    (sphereVertex realLibm pc mc (pc - 1) k).p = ⟨0, 1, 0⟩ := by
  have hne : (((pc - 1 : Int) : ℝ)) ≠ 0 := by
    have : (pc - 1 : Int) ≠ 0 := by omega
    exact_mod_cast this
  have h1 : -(Real.pi / 2) + Real.pi * ((pc - 1 : Int) : ℝ) / ((pc - 1 : Int) : ℝ) =
      Real.pi / 2 := by
    rw [mul_div_assoc, div_self hne]; ring
  simp only [sphereVertex, realLibm, h1, Real.cos_pi_div_two, Real.sin_pi_div_two, zero_mul]

theorem sphereVertex_inner_y (pc mc q k : Int) (hq0 : 0 < q) (hq : q < pc - 1) :
    -1 < (sphereVertex realLibm pc mc q k).p.y ∧ (sphereVertex realLibm pc mc q k).p.y < 1 := by
  have hpc : (0 : ℝ) < ((pc - 1 : Int) : ℝ) := by
    have : (0 : Int) < pc - 1 := by omega
    exact_mod_cast this
  have hq0r : (0 : ℝ) < (q : ℝ) := by exact_mod_cast hq0
  have hqr : (q : ℝ) < ((pc - 1 : Int) : ℝ) := by exact_mod_cast hq
  have hfrac0 : 0 < (q : ℝ) / ((pc - 1 : Int) : ℝ) := div_pos hq0r hpc
  have hfrac1 : (q : ℝ) / ((pc - 1 : Int) : ℝ) < 1 := (div_lt_one hpc).mpr hqr
  have hpi := Real.pi_pos
  have e : Real.pi * (q : ℝ) / ((pc - 1 : Int) : ℝ) =
      Real.pi * ((q : ℝ) / ((pc - 1 : Int) : ℝ)) := mul_div_assoc _ _ _
  have hlo : -(Real.pi / 2) < -(Real.pi / 2) + Real.pi * (q : ℝ) / ((pc - 1 : Int) : ℝ) := by
    rw [e]; nlinarith
  have hhi : -(Real.pi / 2) + Real.pi * (q : ℝ) / ((pc - 1 : Int) : ℝ) < Real.pi / 2 := by
    rw [e]; nlinarith
  have hmemL : -(Real.pi / 2) ∈ Set.Icc (-(Real.pi / 2)) (Real.pi / 2) :=
    ⟨le_refl _, by linarith⟩
  have hmemR : Real.pi / 2 ∈ Set.Icc (-(Real.pi / 2)) (Real.pi / 2) :=
    ⟨by linarith, le_refl _⟩
  have hmem : -(Real.pi / 2) + Real.pi * (q : ℝ) / ((pc - 1 : Int) : ℝ) ∈
      Set.Icc (-(Real.pi / 2)) (Real.pi / 2) := ⟨hlo.le, hhi.le⟩
  have h1 := Real.strictMonoOn_sin hmemL hmem hlo
  have h2 := Real.strictMonoOn_sin hmem hmemR hhi
  rw [Real.sin_neg, Real.sin_pi_div_two] at h1
  rw [Real.sin_pi_div_two] at h2
  exact ⟨h1, h2⟩

theorem vertexPosition_inner_ne_pole (pc mc q k : Int) (hq0 : 0 < q) (hq : q < pc - 1)
    (hk0 : 0 ≤ k) (hk : k < mc) :
    vertexPosition realLibm pc mc (combine_idx mc q k) ≠ some ⟨0, -1, 0⟩ ∧
    vertexPosition realLibm pc mc (combine_idx mc q k) ≠ some ⟨0, 1, 0⟩ := by
  rw [vertexPosition_combine_idx realLibm pc mc q k (by omega) (by omega) hk0 hk]
  obtain ⟨h1, h2⟩ := sphereVertex_inner_y pc mc q k hq0 hq
  constructor
  · intro h
    have hy := congrArg Vec3.y (Option.some.inj h)
    simp only at hy
    linarith
  · intro h
    have hy := congrArg Vec3.y (Option.some.inj h)
    simp only at hy
    linarith

theorem inRow_exists_combine_idx (mc r i : Int) (h : inRow mc r i = true) :
    ∃ k : Int, 0 ≤ k ∧ k < mc ∧ i = combine_idx mc r k := by
  unfold inRow at h
  have h1 := of_decide_eq_true h
  exact ⟨i - r * mc, by omega, by omega, by unfold combine_idx; omega⟩

theorem not_twoCornersAt_pole (pc mc : Int) (t : Int × Int × Int)
    (ht : t ∈ toTriangles (generateTriangles pc mc [])) :
    ¬ twoCornersAt (vertexPosition realLibm pc mc) ⟨0, -1, 0⟩ t ∧
    ¬ twoCornersAt (vertexPosition realLibm pc mc) ⟨0, 1, 0⟩ t := by
  obtain ⟨q, k, hq0, hq, hk0, hk, h⟩ := mem_toTriangles_generateTriangles pc mc t ht
  rcases h with ⟨h1, rfl⟩ | ⟨h1, rfl⟩
  · have a := vertexPosition_inner_ne_pole pc mc q k h1 hq hk0 (by omega)
    have b := vertexPosition_inner_ne_pole pc mc q (k + 1) h1 hq (by omega) (by omega)
    constructor
    · rintro (⟨x, _⟩ | ⟨x, _⟩ | ⟨x, _⟩)
      · exact a.1 x
      · exact a.1 x
      · exact b.1 x
    · rintro (⟨x, _⟩ | ⟨x, _⟩ | ⟨x, _⟩)
      · exact a.2 x
      · exact a.2 x
      · exact b.2 x
  · have a := vertexPosition_inner_ne_pole pc mc (q + 1) k (by omega) (by omega) hk0 (by omega)
    have b := vertexPosition_inner_ne_pole pc mc (q + 1) (k + 1) (by omega) (by omega)
      (by omega) (by omega)
    constructor
    · rintro (⟨_, x⟩ | ⟨_, x⟩ | ⟨x, _⟩)
      · exact a.1 x
      · exact b.1 x
      · exact a.1 x
    · rintro (⟨_, x⟩ | ⟨_, x⟩ | ⟨x, _⟩)
      · exact a.2 x
      · exact b.2 x
      · exact a.2 x

/-- C3: for `parallelCount ≥ 3` and `meridianCount ≥ 3`, the vertices of the row
`parallel = 0` all lie at the point `(0,-1,0)` and those of the row
`parallel = parallelCount - 1` all lie at `(0,1,0)` (exact real arithmetic);
every triangle that `glDrawElements` reads from the generated index list has at
most one corner in each of these two rows, and no such triangle has two corners
at the same pole point. -/
theorem generateTriangles_pole_rows (parallelCount meridianCount : Int)
    (hp : 3 ≤ parallelCount) (_hm : 3 ≤ meridianCount) :
    (∀ i : Int,
      (inRow meridianCount 0 i = true →
        vertexPosition realLibm parallelCount meridianCount i = some ⟨0, -1, 0⟩) ∧
      (inRow meridianCount (parallelCount - 1) i = true →
        vertexPosition realLibm parallelCount meridianCount i = some ⟨0, 1, 0⟩)) ∧
    (∀ t ∈ toTriangles (generateTriangles parallelCount meridianCount []),
      cornersInRow meridianCount 0 t ≤ 1 ∧
      cornersInRow meridianCount (parallelCount - 1) t ≤ 1 ∧
      ¬ twoCornersAt (vertexPosition realLibm parallelCount meridianCount) ⟨0, -1, 0⟩ t ∧
      ¬ twoCornersAt (vertexPosition realLibm parallelCount meridianCount) ⟨0, 1, 0⟩ t) := by
  constructor
  · intro i
    constructor
    · intro h
      obtain ⟨k, hk0, hk, rfl⟩ := inRow_exists_combine_idx _ _ _ h
      rw [vertexPosition_combine_idx realLibm _ _ 0 k (le_refl _) (by omega) hk0 hk,
        sphereVertex_south]
    · intro h
      obtain ⟨k, hk0, hk, rfl⟩ := inRow_exists_combine_idx _ _ _ h
      rw [vertexPosition_combine_idx realLibm _ _ _ k (by omega) (by omega) hk0 hk,
        sphereVertex_north _ _ _ hp]
  · intro t ht
    obtain ⟨h1, h2⟩ := cornersInRow_pole_le_one parallelCount meridianCount t ht
    obtain ⟨h3, h4⟩ := not_twoCornersAt_pole parallelCount meridianCount t ht
    exact ⟨h1, h2, h3, h4⟩

/-- Witness for C3 on the 3 by 3 grid, for the emitted triangle `(0, 3, 4)` and the vertex with index 0. -/
theorem generateTriangles_pole_rows_witness :
    (3 : Int) ≤ 3 ∧ (3 : Int) ≤ 3 ∧
      ((0 : Int), (3 : Int), (4 : Int)) ∈ toTriangles (generateTriangles 3 3 []) ∧
      vertexPosition realLibm 3 3 0 = some ⟨0, -1, 0⟩ ∧
      cornersInRow 3 0 ((0 : Int), (3 : Int), (4 : Int)) ≤ 1 ∧
      cornersInRow 3 (3 - 1) ((0 : Int), (3 : Int), (4 : Int)) ≤ 1 ∧
      ¬ twoCornersAt (vertexPosition realLibm 3 3) ⟨0, -1, 0⟩
        ((0 : Int), (3 : Int), (4 : Int)) ∧
      ¬ twoCornersAt (vertexPosition realLibm 3 3) ⟨0, 1, 0⟩
        ((0 : Int), (3 : Int), (4 : Int)) :=
  have hmem : ((0 : Int), (3 : Int), (4 : Int)) ∈ toTriangles (generateTriangles 3 3 []) := by
    rw [generateTriangles_eq, List.nil_append, toTriangles_flatTri]; decide
  ⟨by decide, by decide, hmem,
    ((generateTriangles_pole_rows 3 3 (by decide) (by decide)).1 0).1 (by decide),
    (generateTriangles_pole_rows 3 3 (by decide) (by decide)).2 _ hmem⟩

/-! ### Seam vertices in exact real arithmetic

With the exact `sin` and `cos` and the exact `pi`, the two vertices of a seam
have the same position. In binary32 they do not: see the section on seam
vertices in float arithmetic. -/

theorem sphereVertex_seam_position (pc mc q : Int) (hm : 3 ≤ mc) :
    (sphereVertex realLibm pc mc q 0).p = (sphereVertex realLibm pc mc q (mc - 1)).p := by
  have hne : (((mc - 1 : Int) : ℝ)) ≠ 0 := by
    have : (mc - 1 : Int) ≠ 0 := by omega
    exact_mod_cast this
  have h0 : Real.pi * 2 * ((0 : Int) : ℝ) / ((mc - 1 : Int) : ℝ) = 0 := by simp
  have h1 : Real.pi * 2 * ((mc - 1 : Int) : ℝ) / ((mc - 1 : Int) : ℝ) = 2 * Real.pi := by
    rw [mul_div_assoc, div_self hne, mul_one, mul_comm]
  simp only [sphereVertex, realLibm, h0, h1, Real.sin_zero, Real.cos_zero, Real.sin_two_pi,
    Real.cos_two_pi]

theorem sphereVertex_texp_first (pc mc q : Int) :
    (sphereVertex realLibm pc mc q 0).texp =
      { x := 0, y := (q : ℝ) / ((pc - 1 : Int) : ℝ) } := by
  simp [sphereVertex]

theorem sphereVertex_texp_last (pc mc q : Int) (hm : 3 ≤ mc) :
    (sphereVertex realLibm pc mc q (mc - 1)).texp =
      { x := 1, y := (q : ℝ) / ((pc - 1 : Int) : ℝ) } := by
  have hne : (((mc - 1 : Int) : ℝ)) ≠ 0 := by
    have : (mc - 1 : Int) ≠ 0 := by omega
    exact_mod_cast this
  simp only [sphereVertex, div_self hne]

/-! ### Camera normalisation -/

section ClampProofs

variable {K : Type} [LinearOrderedField K]

theorem glm_clamp_eq_clampSpec (x lo hi : K) (h : lo ≤ hi) :
    glm_clamp x lo hi = clampSpec lo hi x := by
  unfold glm_clamp glm_min glm_max clampSpec
  by_cases h1 : x < lo
  · have h2 : ¬ (hi < lo) := not_lt.mpr h
    simp [h1, h2]
  · by_cases h2 : hi < x
    · simp [h1, h2]
    · simp [h1, h2]

theorem clampSpec_mem (x lo hi : K) (h : lo ≤ hi) :
    lo ≤ clampSpec lo hi x ∧ clampSpec lo hi x ≤ hi := by
  unfold clampSpec
  by_cases h1 : x < lo
  · simp [h1, h]
  · by_cases h2 : hi < x
    · simp [h1, h2, h]
    · simp [h1, h2]
      exact ⟨not_lt.mp h1, not_lt.mp h2⟩

theorem clampSpec_of_mem (x lo hi : K) (h1 : lo ≤ x) (h2 : x ≤ hi) :
    clampSpec lo hi x = x := by
  unfold clampSpec
  simp [not_lt.mpr h1, not_lt.mpr h2]

end ClampProofs

section CameraProofs

variable {K : Type} [LinearOrderedField K] [FloorRing K]

theorem yawWrapUp_nonneg (yaw : K) : 0 ≤ yawWrapUp yaw := by
  induction yaw using yawWrapUp.induct with
  | case1 x hx ih => rw [yawWrapUp, if_pos hx]; exact ih
  | case2 x hx => rw [yawWrapUp, if_neg hx]; exact not_lt.mp hx

theorem yawWrapUp_of_nonneg (yaw : K) (h : 0 ≤ yaw) : yawWrapUp yaw = yaw := by
  rw [yawWrapUp, if_neg (not_lt.mpr h)]

theorem yawWrapUp_congr (yaw : K) : ∃ k : ℤ, yawWrapUp yaw = yaw + 360 * (k : K) := by
  induction yaw using yawWrapUp.induct with
  | case1 x hx ih =>
    obtain ⟨k, hk⟩ := ih
    refine ⟨k + 1, ?_⟩
    rw [yawWrapUp, if_pos hx, hk]
    push_cast
    ring
  | case2 x hx =>
    refine ⟨0, ?_⟩
    rw [yawWrapUp, if_neg hx]
    simp

theorem yawWrapDown_le (yaw : K) : yawWrapDown yaw ≤ 360 := by
  induction yaw using yawWrapDown.induct with
  | case1 x hx ih => rw [yawWrapDown, if_pos hx]; exact ih
  | case2 x hx => rw [yawWrapDown, if_neg hx]; exact not_lt.mp hx

theorem yawWrapDown_nonneg (yaw : K) (h : 0 ≤ yaw) : 0 ≤ yawWrapDown yaw := by
  induction yaw using yawWrapDown.induct with
  | case1 x hx ih =>
    rw [yawWrapDown, if_pos hx]
    have hx1 : (360 : K) < x := hx
    exact ih (by linarith)
  | case2 x hx => rw [yawWrapDown, if_neg hx]; exact h

theorem yawWrapDown_of_le (yaw : K) (h : yaw ≤ 360) : yawWrapDown yaw = yaw := by
  rw [yawWrapDown, if_neg (not_lt.mpr h)]

theorem yawWrapDown_congr (yaw : K) : ∃ k : ℤ, yawWrapDown yaw = yaw + 360 * (k : K) := by
  induction yaw using yawWrapDown.induct with
  | case1 x hx ih =>
    obtain ⟨k, hk⟩ := ih
    refine ⟨k - 1, ?_⟩
    rw [yawWrapDown, if_pos hx, hk]
    push_cast
    ring
  | case2 x hx =>
    refine ⟨0, ?_⟩
    rw [yawWrapDown, if_neg hx]
    simp

theorem Camera.update_yaw (L : Libm K) (cam : Camera K) :
    (cam.update L).yaw = yawWrapDown (yawWrapUp cam.yaw) := rfl

theorem Camera.update_distance (L : Libm K) (cam : Camera K) :
    (cam.update L).distance = glm_clamp cam.distance 1.0 30.0 := rfl

theorem Camera.update_pitch (L : Libm K) (cam : Camera K) :
    (cam.update L).pitch = glm_clamp cam.pitch (-0.9 * 90.0) (0.9 * 90.0) := rfl

theorem Camera.viewTransform_snd (L : Libm K) (cam : Camera K) :
    (cam.viewTransform L).2 = cam.update L := rfl

/-- C6 (amended): for every input yaw, after `Camera::update` (and hence after
`Camera::viewTransform`) the stored yaw satisfies `0 ≤ yaw ≤ 360`. -/
theorem camera_yaw_range (L : Libm K) (cam : Camera K) :
    (0 ≤ (cam.update L).yaw ∧ (cam.update L).yaw ≤ 360) ∧
    (0 ≤ (cam.viewTransform L).2.yaw ∧ (cam.viewTransform L).2.yaw ≤ 360) := by
  rw [Camera.viewTransform_snd, Camera.update_yaw]
  exact ⟨⟨yawWrapDown_nonneg _ (yawWrapUp_nonneg _), yawWrapDown_le _⟩,
    ⟨yawWrapDown_nonneg _ (yawWrapUp_nonneg _), yawWrapDown_le _⟩⟩

/-- C8: for every input distance and pitch, after `Camera::update` the stored
distance is the input clamped to `[1, 30]` and the stored pitch is the input
clamped to `[-81, 81]`; both lie in their ranges, and inputs already in range
are left unchanged. -/
theorem camera_clamp (L : Libm K) (cam : Camera K) :
    (cam.update L).distance = clampSpec 1 30 cam.distance ∧
    (cam.update L).pitch = clampSpec (-81) 81 cam.pitch ∧
    (1 ≤ (cam.update L).distance ∧ (cam.update L).distance ≤ 30) ∧
    (-81 ≤ (cam.update L).pitch ∧ (cam.update L).pitch ≤ 81) ∧
    (1 ≤ cam.distance → cam.distance ≤ 30 → (cam.update L).distance = cam.distance) ∧
    (-81 ≤ cam.pitch → cam.pitch ≤ 81 → (cam.update L).pitch = cam.pitch) := by
  have e1 : ((1.0 : K)) = 1 := by norm_num
  have e2 : ((30.0 : K)) = 30 := by norm_num
  have e3 : ((-0.9 : K) * 90.0) = -81 := by norm_num
  have e4 : ((0.9 : K) * 90.0) = 81 := by norm_num
  have hd : (cam.update L).distance = clampSpec 1 30 cam.distance := by
    rw [Camera.update_distance, e1, e2]
    exact glm_clamp_eq_clampSpec _ _ _ (by norm_num)
  have hp : (cam.update L).pitch = clampSpec (-81) 81 cam.pitch := by
    rw [Camera.update_pitch, e3, e4]
    exact glm_clamp_eq_clampSpec _ _ _ (by norm_num)
  refine ⟨hd, hp, ?_, ?_, ?_, ?_⟩
  · rw [hd]; exact clampSpec_mem _ _ _ (by norm_num)
  · rw [hp]; exact clampSpec_mem _ _ _ (by norm_num)
  · intro h1 h2; rw [hd]; exact clampSpec_of_mem _ _ _ h1 h2
  · intro h1 h2; rw [hp]; exact clampSpec_of_mem _ _ _ h1 h2

end CameraProofs

/-- C6 (as stated, refuted): a camera whose yaw is 360 (the upper end of the
yaw slider) keeps yaw 360 through `Camera::update`, so the stored yaw is not
below 360. -/
theorem camera_yaw_counterexample :
    (Camera.new realLibm (-25) 360 16 (Real.pi / 4)).yaw = 360 ∧
    ¬ ((Camera.new realLibm (-25) 360 16 (Real.pi / 4)).yaw < 360) := by
  have h : (Camera.new realLibm (-25) 360 16 (Real.pi / 4)).yaw = 360 := by
    unfold Camera.new
    rw [Camera.update_yaw, yawWrapUp_of_nonneg _ (by norm_num),
      yawWrapDown_of_le _ (le_refl _)]
  exact ⟨h, by rw [h]; exact lt_irrefl _⟩

/-- Witness for C8: the program's initial camera keeps distance 16 and pitch -25, and a distance of 35 is clamped. -/
theorem camera_clamp_witness :
    (1 : ℝ) ≤ 16 ∧ (16 : ℝ) ≤ 30 ∧ (-81 : ℝ) ≤ -25 ∧ (-25 : ℝ) ≤ 81 ∧
    (Camera.new realLibm (-25) 275 16 (Real.pi / 4)).distance = 16 ∧
    (Camera.new realLibm (-25) 275 16 (Real.pi / 4)).pitch = -25 ∧
    (Camera.new realLibm (-25) 275 35 (Real.pi / 4)).distance = clampSpec 1 30 35 :=
  ⟨by norm_num, by norm_num, by norm_num, by norm_num,
    (camera_clamp realLibm _).2.2.2.2.1 (by norm_num) (by norm_num),
    (camera_clamp realLibm _).2.2.2.2.2 (by norm_num) (by norm_num),
    (camera_clamp realLibm _).1⟩

/-! ### Angle wrap of the update step -/

section AngleProofs

variable {K : Type} [LinearOrderedField K]

/-- One update step keeps both angles in `[0, 360]` when the increments are in
`[0, 360]`. -/
theorem updateAngles_range (f : FrameInput K) (s : SceneAngles K)
    (he : 0 ≤ f.executionDeltaTime * f.earth_rotation_speed)
    (he1 : f.executionDeltaTime * f.earth_rotation_speed ≤ 360)
    (hm : 0 ≤ f.executionDeltaTime * f.moon_rotation_speed)
    (hm1 : f.executionDeltaTime * f.moon_rotation_speed ≤ 360)
    (hs : (0 ≤ s.earth_angle ∧ s.earth_angle ≤ 360) ∧ (0 ≤ s.moon_angle ∧ s.moon_angle ≤ 360)) :
    (0 ≤ (updateAngles f s).earth_angle ∧ (updateAngles f s).earth_angle ≤ 360) ∧
    (0 ≤ (updateAngles f s).moon_angle ∧ (updateAngles f s).moon_angle ≤ 360) := by
  obtain ⟨⟨a1, a2⟩, ⟨b1, b2⟩⟩ := hs
  simp only [updateAngles]
  refine ⟨?_, ?_⟩
  · split_ifs with h
    · constructor <;> linarith
    · exact ⟨by linarith, not_lt.mp h⟩
  · split_ifs with h
    · constructor <;> linarith
    · exact ⟨by linarith, not_lt.mp h⟩

theorem runFrames_range (frames : List (FrameInput K)) :
    ∀ s : SceneAngles K,
    (∀ f ∈ frames, 0 < f.executionDeltaTime ∧
      (0 ≤ f.earth_rotation_speed ∧ f.executionDeltaTime * f.earth_rotation_speed ≤ 360) ∧
      (0 ≤ f.moon_rotation_speed ∧ f.executionDeltaTime * f.moon_rotation_speed ≤ 360)) →
    ((0 ≤ s.earth_angle ∧ s.earth_angle ≤ 360) ∧ (0 ≤ s.moon_angle ∧ s.moon_angle ≤ 360)) →
    (0 ≤ (runFrames frames s).earth_angle ∧ (runFrames frames s).earth_angle ≤ 360) ∧
    (0 ≤ (runFrames frames s).moon_angle ∧ (runFrames frames s).moon_angle ≤ 360) := by
  induction frames with
  | nil => intro s _ hs; exact hs
  | cons f fs ih =>
    intro s h hs
    obtain ⟨hdt, ⟨e0, e1⟩, ⟨m0, m1⟩⟩ := h f (List.mem_cons_self _ _)
    have step := updateAngles_range f s (mul_nonneg hdt.le e0) e1 (mul_nonneg hdt.le m0) m1 hs
    exact ih (updateAngles f s) (fun g hg => h g (List.mem_cons_of_mem _ hg)) step

/-- C7 (amended): for any number of per-frame update steps starting from angle
0, with positive `deltaTime` and non-negative rotation speeds such that
`deltaTime * speed ≤ 360` at each step, `earth_angle` and `moon_angle` both lie
in `[0, 360]` after every step. -/
theorem angle_wrap_range (frames : List (FrameInput K)) (moon_orbit_position : K)
    (h : ∀ f ∈ frames, 0 < f.executionDeltaTime ∧
      (0 ≤ f.earth_rotation_speed ∧ f.executionDeltaTime * f.earth_rotation_speed ≤ 360) ∧
      (0 ≤ f.moon_rotation_speed ∧ f.executionDeltaTime * f.moon_rotation_speed ≤ 360))
    (n : Nat) :
    (0 ≤ (runFrames (frames.take n) ⟨0, 0, moon_orbit_position⟩).earth_angle ∧
      (runFrames (frames.take n) ⟨0, 0, moon_orbit_position⟩).earth_angle ≤ 360) ∧
    (0 ≤ (runFrames (frames.take n) ⟨0, 0, moon_orbit_position⟩).moon_angle ∧
      (runFrames (frames.take n) ⟨0, 0, moon_orbit_position⟩).moon_angle ≤ 360) :=
  runFrames_range (frames.take n) _ (fun f hf => h f (List.mem_of_mem_take hf))
    ⟨⟨le_refl _, by norm_num⟩, ⟨le_refl _, by norm_num⟩⟩

end AngleProofs

/-- C7 (as stated, refuted): starting from angle 0, one step with
`deltaTime = 1` and both rotation speeds 1000 leaves both angles at 640 (one
subtraction of 360 only); one step with `deltaTime = 1` and speed 360 leaves the
angle at 360; one step with `deltaTime = 1` and speed -10 leaves it at -10. -/
theorem angle_wrap_counterexample :
    ((runFrames [⟨1, 1000, 1000, 1⟩] (⟨0, 0, 0⟩ : SceneAngles ℚ)).earth_angle = 640 ∧
      (runFrames [⟨1, 1000, 1000, 1⟩] (⟨0, 0, 0⟩ : SceneAngles ℚ)).moon_angle = 640 ∧
      ¬ ((640 : ℚ) < 360)) ∧
    ((runFrames [⟨1, 360, 360, 1⟩] (⟨0, 0, 0⟩ : SceneAngles ℚ)).earth_angle = 360 ∧
      ¬ ((360 : ℚ) < 360)) ∧
    ((runFrames [⟨1, -10, -10, 1⟩] (⟨0, 0, 0⟩ : SceneAngles ℚ)).earth_angle = -10 ∧
      ¬ ((0 : ℚ) ≤ -10)) := by
  refine ⟨⟨?_, ?_, ?_⟩, ⟨?_, ?_⟩, ⟨?_, ?_⟩⟩ <;>
    norm_num [runFrames, updateAngles]

/-- Witness for the amended C7: two frames, of 1/60 s and 1/2 s, with rotation speeds within the range of the sliders. -/
theorem angle_wrap_range_witness :
    ((0 : ℚ) ≤ (runFrames (List.take 2 [⟨1 / 60, 243 / 2, 990, 1⟩, ⟨1 / 2, 243 / 2, 700, 1⟩])
        (⟨0, 0, 0⟩ : SceneAngles ℚ)).earth_angle ∧
      (runFrames (List.take 2 [⟨1 / 60, 243 / 2, 990, 1⟩, ⟨1 / 2, 243 / 2, 700, 1⟩])
        (⟨0, 0, 0⟩ : SceneAngles ℚ)).earth_angle ≤ 360) ∧
    ((0 : ℚ) ≤ (runFrames (List.take 2 [⟨1 / 60, 243 / 2, 990, 1⟩, ⟨1 / 2, 243 / 2, 700, 1⟩])
        (⟨0, 0, 0⟩ : SceneAngles ℚ)).moon_angle ∧
      (runFrames (List.take 2 [⟨1 / 60, 243 / 2, 990, 1⟩, ⟨1 / 2, 243 / 2, 700, 1⟩])
        (⟨0, 0, 0⟩ : SceneAngles ℚ)).moon_angle ≤ 360) :=
  angle_wrap_range [⟨1 / 60, 243 / 2, 990, 1⟩, ⟨1 / 2, 243 / 2, 700, 1⟩] 0
    (by
      intro f hf
      simp only [List.mem_cons, List.mem_singleton, List.not_mem_nil, or_false] at hf
      rcases hf with rfl | rfl <;> norm_num)
    2

/-! ### Model transforms -/

section TransformProofs

variable {K : Type} [Field K]

theorem glm_translate_eq_mul (m : Mat4 K) (v : Vec3 K) :
    glm_translate m v = m.mul (glm_translate Mat4.identity v) := by
  ext <;> simp only [glm_translate, Mat4.mul, Mat4.identity, Vec4.add, Vec4.smul] <;> ring

theorem glm_scale_eq_mul (m : Mat4 K) (v : Vec3 K) :
    glm_scale m v = m.mul (glm_scale Mat4.identity v) := by
  ext <;> simp only [glm_scale, Mat4.mul, Mat4.identity, Vec4.add, Vec4.smul] <;> ring

theorem glm_rotate_eq_mul (L : Libm K) (m : Mat4 K) (angle : K) (v : Vec3 K) :
    glm_rotate L m angle v = m.mul (glm_rotate L Mat4.identity angle v) := by
  ext <;> simp only [glm_rotate, Mat4.mul, Mat4.identity, Vec4.add, Vec4.smul] <;> ring

theorem Mat4.mul_mulVec (a b : Mat4 K) (v : Vec4 K) :
    (a.mul b).mulVec v = a.mulVec (b.mulVec v) := by
  ext <;> simp only [Mat4.mul, Mat4.mulVec, Vec4.add, Vec4.smul] <;> ring

theorem glm_translate_identity_mulVec (t p : Vec3 K) :
    (glm_translate Mat4.identity t).mulVec p.toPoint = (p.add t).toPoint := by
  ext <;> simp only [glm_translate, Mat4.mulVec, Mat4.identity, Vec4.add, Vec4.smul, Vec3.toPoint,
    Vec3.add] <;> ring

theorem glm_rotate_then_translate (L : Libm K) (angle : K) (axis t p : Vec3 K) :
    (glm_translate (glm_rotate L Mat4.identity angle axis) t).mulVec p.toPoint =
      (glm_rotate L Mat4.identity angle axis).mulVec (p.add t).toPoint := by
  rw [glm_translate_eq_mul, Mat4.mul_mulVec, glm_translate_identity_mulVec]

theorem glm_translate_then_rotate (L : Libm K) (angle : K) (axis t p : Vec3 K) :
    (glm_rotate L (glm_translate Mat4.identity t) angle axis).mulVec p.toPoint =
      ((glm_rotate L Mat4.identity angle axis).mulVec p.toPoint).add t.toDirection := by
  ext <;> simp only [glm_rotate, glm_translate, Mat4.mulVec, Mat4.identity, Vec4.add, Vec4.smul,
    Vec3.toPoint, Vec3.toDirection] <;> ring
end TransformProofs

theorem glm_radians_ninety : glm_radians realLibm 90 = Real.pi / 2 := by
  simp only [glm_radians, realLibm]
  ring

theorem glm_normalize_unit_y : glm_normalize realLibm (⟨0, 1, 0⟩ : Vec3 ℝ) = ⟨0, 1, 0⟩ := by
  simp [glm_normalize, glm_inversesqrt, glm_dot, realLibm, Vec3.smul]

theorem translate_then_rotate_origin (m : Mat4 ℝ) (hm : m = Mat4.identity) :
    (glm_rotate realLibm (glm_translate m ⟨1, 0, 0⟩) (glm_radians realLibm 90)
      ⟨0, 1, 0⟩).mulVec ⟨0, 0, 0, 1⟩ = ⟨1, 0, 0, 1⟩ := by
  subst hm
  simp [glm_rotate, glm_translate, glm_normalize_unit_y, Mat4.mulVec, Mat4.identity,
    Vec4.add, Vec4.smul]

theorem rotate_then_translate_origin (m : Mat4 ℝ) (hm : m = Mat4.identity) :
    (glm_translate (glm_rotate realLibm m (glm_radians realLibm 90) ⟨0, 1, 0⟩)
      ⟨1, 0, 0⟩).mulVec ⟨0, 0, 0, 1⟩ = ⟨0, 0, -1, 1⟩ := by
  subst hm
  have hc : realLibm.cos (Real.pi / 2) = 0 := Real.cos_pi_div_two
  have hs : realLibm.sin (Real.pi / 2) = 1 := Real.sin_pi_div_two
  simp [glm_rotate, glm_translate, glm_normalize_unit_y, glm_radians_ninety, hc, hs,
    Mat4.mulVec, Mat4.identity, Vec4.add, Vec4.smul]

/-- C4 (as stated, refuted): with `T = (1,0,0)` and `R` the rotation by 90
degrees about the Y axis, the matrix built on the sphere `earth` by
`resetTransform().translate(T).rotate(R)` maps the origin to `(1,0,0)`, not to
`(0,0,-1)`, and the one built by `resetTransform().rotate(R).translate(T)` maps
it to `(0,0,-1)`, not to `(1,0,0)`. -/
theorem transform_order_counterexample :
    (((earth (K := ℝ)).resetTransform.translate ⟨1, 0, 0⟩).rotate realLibm
        (glm_radians realLibm 90) ⟨0, 1, 0⟩).center = ⟨1, 0, 0, 1⟩ ∧
    (((earth (K := ℝ)).resetTransform.translate ⟨1, 0, 0⟩).rotate realLibm
        (glm_radians realLibm 90) ⟨0, 1, 0⟩).center ≠ ⟨0, 0, -1, 1⟩ ∧
    (((earth (K := ℝ)).resetTransform.rotate realLibm
        (glm_radians realLibm 90) ⟨0, 1, 0⟩).translate ⟨1, 0, 0⟩).center = ⟨0, 0, -1, 1⟩ ∧
    (((earth (K := ℝ)).resetTransform.rotate realLibm
        (glm_radians realLibm 90) ⟨0, 1, 0⟩).translate ⟨1, 0, 0⟩).center ≠ ⟨1, 0, 0, 1⟩ := by
  have h1 := translate_then_rotate_origin Mat4.identity rfl
  have h2 := rotate_then_translate_origin Mat4.identity rfl
  refine ⟨h1, ?_, h2, ?_⟩
  · intro h
    have hx := congrArg Vec4.x (h1.symm.trans h)
    norm_num at hx
  · intro h
    have hx := congrArg Vec4.x (h2.symm.trans h)
    norm_num at hx

/-- C4 (amended): with `T = (1,0,0)` and `R` the rotation by 90 degrees about
the Y axis, the matrix built by `resetTransform().translate(T).rotate(R)` maps
the origin `(0,0,0)` to `(1,0,0)`, while the matrix built by
`resetTransform().rotate(R).translate(T)` maps the origin to `(0,0,-1)`; this
holds for `Sphere` and for `PolyLine`. -/
theorem transform_order_example (s : Sphere ℝ) (l : PolyLine ℝ) :
    ((s.resetTransform.translate ⟨1, 0, 0⟩).rotate realLibm
        (glm_radians realLibm 90) ⟨0, 1, 0⟩).center = ⟨1, 0, 0, 1⟩ ∧
    ((s.resetTransform.rotate realLibm
        (glm_radians realLibm 90) ⟨0, 1, 0⟩).translate ⟨1, 0, 0⟩).center = ⟨0, 0, -1, 1⟩ ∧
    ((l.resetTransform.translate ⟨1, 0, 0⟩).rotate realLibm
        (glm_radians realLibm 90) ⟨0, 1, 0⟩).modelTransform.mulVec ⟨0, 0, 0, 1⟩ =
      ⟨1, 0, 0, 1⟩ ∧
    ((l.resetTransform.rotate realLibm
        (glm_radians realLibm 90) ⟨0, 1, 0⟩).translate ⟨1, 0, 0⟩).modelTransform.mulVec
        ⟨0, 0, 0, 1⟩ = ⟨0, 0, -1, 1⟩ :=
  ⟨translate_then_rotate_origin _ rfl, rotate_then_translate_origin _ rfl,
    translate_then_rotate_origin _ rfl, rotate_then_translate_origin _ rfl⟩

/-! ### Camera eye position -/

theorem Camera.update_pos {K : Type} [LinearOrderedField K] [FloorRing K]
    (L : Libm K) (cam : Camera K) :
    (cam.update L).pos =
      (glm_normalize L (sphericalDirection L (cam.update L).pitch (cam.update L).yaw)).neg.smul
        (cam.update L).distance := rfl

theorem Camera.update_front {K : Type} [LinearOrderedField K] [FloorRing K]
    (L : Libm K) (cam : Camera K) :
    (cam.update L).front =
      glm_normalize L
        (glm_normalize L (sphericalDirection L (cam.update L).pitch (cam.update L).yaw)) := rfl

theorem sphericalDirection_unit (pitch yaw : ℝ) :
    glm_dot (sphericalDirection realLibm pitch yaw) (sphericalDirection realLibm pitch yaw)
      = 1 := by
  simp only [glm_dot, sphericalDirection, realLibm]
  have h1 := Real.cos_sq_add_sin_sq (glm_radians realLibm pitch)
  have h2 := Real.cos_sq_add_sin_sq (glm_radians realLibm yaw)
  simp only [realLibm] at h1 h2
  nlinarith [h1, h2]

theorem glm_normalize_of_unit (v : Vec3 ℝ) (h : glm_dot v v = 1) :
    glm_normalize realLibm v = v := by
  ext <;> simp [glm_normalize, glm_inversesqrt, realLibm, Vec3.smul, h]

theorem Camera.update_distance_clampSpec {K : Type} [LinearOrderedField K] [FloorRing K]
    (L : Libm K) (cam : Camera K) :
    (cam.update L).distance = clampSpec 1 30 cam.distance := by
  have e1 : ((1.0 : K)) = 1 := by norm_num
  have e2 : ((30.0 : K)) = 30 := by norm_num
  rw [Camera.update_distance, e1, e2]
  exact glm_clamp_eq_clampSpec _ _ _ (by norm_num)

/-- C11: for every pitch, yaw and distance, after `Camera::update` the eye
position is `pos = -direction * distance`, where
`direction = (cos(pitch)cos(yaw), sin(pitch), cos(pitch)sin(yaw))` (for the
stored pitch and yaw) is a unit vector and `distance` is the clamped distance;
the eye is exactly `distance` away from the origin, and
`pos + distance * front = (0,0,0)`.  Exact real arithmetic. -/
theorem camera_eye_position (cam : Camera ℝ) :
    glm_dot (sphericalDirection realLibm (cam.update realLibm).pitch (cam.update realLibm).yaw)
        (sphericalDirection realLibm (cam.update realLibm).pitch (cam.update realLibm).yaw)
      = 1 ∧
    (cam.update realLibm).pos =
      (sphericalDirection realLibm (cam.update realLibm).pitch
        (cam.update realLibm).yaw).neg.smul (cam.update realLibm).distance ∧
    (cam.update realLibm).distance = clampSpec 1 30 cam.distance ∧
    Real.sqrt (glm_dot (cam.update realLibm).pos (cam.update realLibm).pos) =
      (cam.update realLibm).distance ∧
    (cam.update realLibm).pos.add ((cam.update realLibm).front.smul
      (cam.update realLibm).distance) = ⟨0, 0, 0⟩ := by
  have hu := sphericalDirection_unit (cam.update realLibm).pitch (cam.update realLibm).yaw
  have hpos : (cam.update realLibm).pos =
      (sphericalDirection realLibm (cam.update realLibm).pitch
        (cam.update realLibm).yaw).neg.smul (cam.update realLibm).distance := by
    rw [Camera.update_pos, glm_normalize_of_unit _ hu]
  have hfront : (cam.update realLibm).front =
      sphericalDirection realLibm (cam.update realLibm).pitch (cam.update realLibm).yaw := by
    rw [Camera.update_front, glm_normalize_of_unit _ hu, glm_normalize_of_unit _ hu]
  have hd := Camera.update_distance_clampSpec realLibm cam
  have hd1 : (1 : ℝ) ≤ (cam.update realLibm).distance := by
    rw [hd]; exact (clampSpec_mem _ _ _ (by norm_num)).1
  refine ⟨hu, hpos, hd, ?_, ?_⟩
  · have e : glm_dot (cam.update realLibm).pos (cam.update realLibm).pos =
        (cam.update realLibm).distance ^ 2 := by
      rw [hpos]
      simp only [glm_dot, Vec3.smul, Vec3.neg] at hu ⊢
      linear_combination ((cam.update realLibm).distance ^ 2) * hu
    rw [e, Real.sqrt_sq (by linarith)]
  · rw [hfront, hpos]
    ext <;> simp only [Vec3.add, Vec3.smul, Vec3.neg] <;> ring

/-! ### The moon on its orbit -/

section MoonProofs

variable {K : Type} [Field K]

theorem Sphere.center_rotate (L : Libm K) (s : Sphere K) (angle : K) (axis : Vec3 K) :
    (s.rotate L angle axis).center = s.center := by
  ext <;> simp only [Sphere.center, Sphere.rotate, glm_rotate, Mat4.mulVec, Vec4.add,
    Vec4.smul] <;> ring

theorem moonOffset_center (L : Libm K) (s : Sphere K) (rx rz phase : K) :
    (moonOffset L s rx rz phase).center =
      s.modelTransform.mulVec ⟨rx * L.sin phase, 0, rz * L.cos phase, 1⟩ := by
  ext <;> simp only [Sphere.center, moonOffset, Sphere.translate, glm_translate, Mat4.mulVec,
    Vec4.add, Vec4.smul] <;> ring

theorem placeMoonOrbit_mulVec (L : Libm K) (s : Sphere K) (l : PolyLine K)
    (pitch roll rx rz : K) (p : Vec4 K) :
    (placeMoonOrbit L l pitch roll rx rz).modelTransform.mulVec p =
      (moonTilt L s pitch roll).modelTransform.mulVec ⟨rx * p.x, p.y, rz * p.z, p.w⟩ := by
  ext <;> simp only [placeMoonOrbit, moonTilt, PolyLine.scale, PolyLine.rotate,
    PolyLine.resetTransform, Sphere.rotate, Sphere.resetTransform, glm_scale, glm_rotate,
    Mat4.mulVec, Vec4.add, Vec4.smul] <;> ring

theorem placeMoon_center (L : Libm K) (s : Sphere K) (l : PolyLine K)
    (pitch roll rx rz phase angle : K) (axis : Vec3 K) :
    (placeMoon L s pitch roll rx rz phase angle axis).center =
      (placeMoonOrbit L l pitch roll rx rz).modelTransform.mulVec
        ⟨L.sin phase, 0, L.cos phase, 1⟩ := by
  rw [placeMoon, Sphere.center_rotate, moonOffset_center, placeMoonOrbit_mulVec L s l]

/-- C12: for every orbit phase, orbit radii, orbit pitch and roll, spin angle
and non-zero spin axis, the centre of the moon after its per-frame transform
chain (`Sphere::center`, the model transform applied to `(0,0,0,1)`) equals the
model transform of the orbit path applied to the unit-circle point
`(sin(phase), 0, cos(phase))`; the centre is the same for any other spin angle
and non-zero spin axis. -/
theorem moon_on_orbit (L : Libm K) (s : Sphere K) (l : PolyLine K)
    (pitch roll radiusX radiusZ phase angle : K) (axis : Vec3 K)
    (_haxis : axis ≠ ⟨0, 0, 0⟩) :
    (placeMoon L s pitch roll radiusX radiusZ phase angle axis).center =
      (placeMoonOrbit L l pitch roll radiusX radiusZ).modelTransform.mulVec
        ⟨L.sin phase, 0, L.cos phase, 1⟩ ∧
    ∀ (angle2 : K) (axis2 : Vec3 K), axis2 ≠ ⟨0, 0, 0⟩ →
      (placeMoon L s pitch roll radiusX radiusZ phase angle2 axis2).center =
        (placeMoon L s pitch roll radiusX radiusZ phase angle axis).center :=
  ⟨placeMoon_center L s l pitch roll radiusX radiusZ phase angle axis,
    fun angle2 axis2 _ => by
      rw [placeMoon_center L s l pitch roll radiusX radiusZ phase angle2 axis2,
        placeMoon_center L s l pitch roll radiusX radiusZ phase angle axis]⟩

end MoonProofs

theorem moon_rotation_axis_ne_zero : (⟨1 / 2, 1, 1 / 20⟩ : Vec3 ℝ) ≠ ⟨0, 0, 0⟩ := by
  intro h
  have hy := congrArg Vec3.y h
  norm_num at hy

/-- Witness for C12 with the program's initial values: orbit pitch 11, roll 18,
radii 7 and 3, spin axis `(0.5, 1, 0.05)`, at phase 1 and spin angle 30. -/
theorem moon_on_orbit_witness :
    (placeMoon realLibm moon 11 18 7 3 1 30 ⟨1 / 2, 1, 1 / 20⟩).center =
      (placeMoonOrbit realLibm moon_orbit 11 18 7 3).modelTransform.mulVec
        ⟨realLibm.sin 1, 0, realLibm.cos 1, 1⟩ :=
  (moon_on_orbit realLibm moon moon_orbit 11 18 7 3 1 30 ⟨1 / 2, 1, 1 / 20⟩
    moon_rotation_axis_ne_zero).1

/-- C13: with `moon_orbit_traverse_speed = 1`, `moon_orbit_radius_x = 7`,
`moon_orbit_radius_z = 3` and `moon_orbit_position = 0`, one update step with
`deltaTime = pi/2` sets `moon_orbit_position` to `pi/2`; the two chained
`translate` calls of the moon then amount to the single translation by
`(7*sin(pi/2), 0, 3*cos(pi/2)) = (7, 0, 0)`, applied to a point before the orbit
tilt.  Exact real arithmetic. -/
theorem orbit_step_scenario (earth_angle moon_angle earth_rotation_speed moon_rotation_speed
    pitch roll : ℝ) (s : Sphere ℝ) (p : Vec3 ℝ) :
    (updateAngles ⟨Real.pi / 2, earth_rotation_speed, moon_rotation_speed, 1⟩
        ⟨earth_angle, moon_angle, 0⟩).moon_orbit_position = Real.pi / 2 ∧
    (⟨7 * realLibm.sin (Real.pi / 2), 0, 0⟩ : Vec3 ℝ).add
        ⟨0, 0, 3 * realLibm.cos (Real.pi / 2)⟩ = ⟨7, 0, 0⟩ ∧
    (moonOffset realLibm s 7 3
        (updateAngles ⟨Real.pi / 2, earth_rotation_speed, moon_rotation_speed, 1⟩
          ⟨earth_angle, moon_angle, 0⟩).moon_orbit_position).modelTransform =
      (s.translate ⟨7, 0, 0⟩).modelTransform ∧
    (moonOffset realLibm (moonTilt realLibm s pitch roll) 7 3
        (updateAngles ⟨Real.pi / 2, earth_rotation_speed, moon_rotation_speed, 1⟩
          ⟨earth_angle, moon_angle, 0⟩).moon_orbit_position).modelTransform.mulVec p.toPoint =
      (moonTilt realLibm s pitch roll).modelTransform.mulVec (p.add ⟨7, 0, 0⟩).toPoint := by
  have hpos : (updateAngles ⟨Real.pi / 2, earth_rotation_speed, moon_rotation_speed, 1⟩
        ⟨earth_angle, moon_angle, 0⟩).moon_orbit_position = Real.pi / 2 := by
    simp only [updateAngles]
    ring
  have hs : realLibm.sin (Real.pi / 2) = 1 := Real.sin_pi_div_two
  have hc : realLibm.cos (Real.pi / 2) = 0 := Real.cos_pi_div_two
  have hoff : ∀ t : Sphere ℝ, (moonOffset realLibm t 7 3 (Real.pi / 2)).modelTransform =
      (t.translate ⟨7, 0, 0⟩).modelTransform := by
    intro t
    ext <;> simp only [moonOffset, Sphere.translate, glm_translate, Vec4.add, Vec4.smul, hs, hc]
      <;> ring
  refine ⟨hpos, ?_, ?_, ?_⟩
  · rw [hs, hc]
    ext <;> simp only [Vec3.add] <;> ring
  · rw [hpos, hoff]
  · rw [hpos, hoff, Sphere.translate, glm_translate_eq_mul, Mat4.mul_mulVec,
      glm_translate_identity_mulVec]

/-! ### Sky backdrop -/

section SkyLookAt

variable {K : Type} [Field K]

theorem Vec3.add_sub_cancel_left (a b : Vec3 K) : (a.add b).sub a = b := by
  ext <;> simp only [Vec3.add, Vec3.sub] <;> ring

theorem skyViewTransform_lookAt (L : Libm K) (eye1 eye2 front up : Vec3 K) :
    skyViewTransform (glm_lookAt L eye1 (eye1.add front) up) =
      skyViewTransform (glm_lookAt L eye2 (eye2.add front) up) := by
  simp only [skyViewTransform, glm_mat4_of_mat3, glm_mat3_of_mat4, glm_lookAt,
    Vec3.add_sub_cancel_left]

theorem skyViewTransform_origin (m : Mat4 K) :
    (skyViewTransform m).c3 = ⟨0, 0, 0, 1⟩ ∧
    (skyViewTransform m).mulVec ⟨0, 0, 0, 1⟩ = ⟨0, 0, 0, 1⟩ := by
  constructor
  · rfl
  · ext <;> simp only [skyViewTransform, glm_mat4_of_mat3, glm_mat3_of_mat4, Mat4.mulVec,
      Vec4.add, Vec4.smul] <;> ring

end SkyLookAt

section SkyProofs

variable {K : Type} [LinearOrderedField K] [FloorRing K]

theorem Camera.update_front_up_eq (L : Libm K) (cam1 cam2 : Camera K)
    (hp : cam1.pitch = cam2.pitch) (hy : cam1.yaw = cam2.yaw) :
    (cam1.update L).front = (cam2.update L).front ∧ (cam1.update L).up = (cam2.update L).up := by
  simp only [Camera.update, hp, hy, and_self]

/-- C15: the view matrix used for the sky backdrop,
`mat4(mat3(viewTransform))`, has no translation (its fourth column is
`(0,0,0,1)`, it maps the origin to the origin) and does not depend on the camera
position: two cameras with the same pitch and yaw, whatever their distances (and
fields of view), give the same sky view matrix.  Exact arithmetic. -/
theorem sky_view_independent_of_distance (L : Libm K) (cam1 cam2 : Camera K)
    (hp : cam1.pitch = cam2.pitch) (hy : cam1.yaw = cam2.yaw) :
    (skyViewTransform (cam1.viewTransform L).1).c3 = ⟨0, 0, 0, 1⟩ ∧
    (skyViewTransform (cam1.viewTransform L).1).mulVec ⟨0, 0, 0, 1⟩ = ⟨0, 0, 0, 1⟩ ∧
    skyViewTransform (cam1.viewTransform L).1 = skyViewTransform (cam2.viewTransform L).1 := by
  obtain ⟨hf, hu⟩ := Camera.update_front_up_eq L cam1 cam2 hp hy
  refine ⟨(skyViewTransform_origin _).1, (skyViewTransform_origin _).2, ?_⟩
  simp only [Camera.viewTransform]
  rw [hf, hu]
  exact skyViewTransform_lookAt L _ _ _ _

end SkyProofs

/-- Witness for C15: the program's initial camera (pitch -25, yaw 275) at
distance 16 and at distance 5. -/
theorem sky_view_independent_of_distance_witness :
    skyViewTransform
        ((Camera.new realLibm (-25) 275 16 (Real.pi / 4)).viewTransform realLibm).1 =
      skyViewTransform
        ((Camera.new realLibm (-25) 275 5 (Real.pi / 4)).viewTransform realLibm).1 :=
  (sky_view_independent_of_distance realLibm
    (Camera.new realLibm (-25) 275 16 (Real.pi / 4))
    (Camera.new realLibm (-25) 275 5 (Real.pi / 4)) rfl rfl).2.2

/-! ### The orbit circle -/

section CircleProofs

variable {K : Type} [Field K]

end CircleProofs

/-! With the exact `sin` and `cos` and the exact `pi`, every point lies on the
unit circle and the last point is the first. In binary32 the last point is not
the first: see the section on the circle in float arithmetic. -/

theorem circlePoint_on_unit_circle (size i : Int) :
    (circlePoint realLibm size i).y = 0 ∧
    (circlePoint realLibm size i).x ^ 2 + (circlePoint realLibm size i).z ^ 2 = 1 := by
  simp only [circlePoint, realLibm]
  exact ⟨trivial, Real.sin_sq_add_cos_sq _⟩

theorem circlePoint_first (size : Int) : circlePoint realLibm size 0 = ⟨0, 0, 1⟩ := by
  simp [circlePoint, realLibm]

theorem circlePoint_last (size : Int) (h : 2 ≤ size) :
    circlePoint realLibm size (size - 1) = ⟨0, 0, 1⟩ := by
  have hne : (((size - 1 : Int) : ℝ)) ≠ 0 := by
    have : (size - 1 : Int) ≠ 0 := by omega
    exact_mod_cast this
  have h1 : 2 * Real.pi * ((size - 1 : Int) : ℝ) / ((size - 1 : Int) : ℝ) = 2 * Real.pi := by
    rw [mul_div_assoc, div_self hne, mul_one]
  simp only [circlePoint, realLibm, h1, Real.sin_two_pi, Real.cos_two_pi]

/-! ### Validity of the emitted indices -/

theorem mem_flatTri (i : Int) (ts : List (Int × Int × Int)) (h : i ∈ flatTri ts) :
    ∃ t ∈ ts, i = t.1 ∨ i = t.2.1 ∨ i = t.2.2 := by
  induction ts with
  | nil => simp [flatTri] at h
  | cons t ts ih =>
    simp only [flatTri, List.mem_cons] at h
    rcases h with h | h | h | h
    · exact ⟨t, List.mem_cons_self _ _, Or.inl h⟩
    · exact ⟨t, List.mem_cons_self _ _, Or.inr (Or.inl h)⟩
    · exact ⟨t, List.mem_cons_self _ _, Or.inr (Or.inr h)⟩
    · obtain ⟨u, hu, hi⟩ := ih h
      exact ⟨u, List.mem_cons_of_mem _ hu, hi⟩

theorem mem_generateTriangles (pc mc i : Int) (h : i ∈ generateTriangles pc mc []) :
    ∃ t ∈ toTriangles (generateTriangles pc mc []), i = t.1 ∨ i = t.2.1 ∨ i = t.2.2 := by
  rw [generateTriangles_eq, List.nil_append] at h ⊢
  rw [toTriangles_flatTri]
  exact mem_flatTri i _ h

theorem combine_idx_bounds (pc mc q k : Int) (hq0 : 0 ≤ q) (hq : q < pc) (hk0 : 0 ≤ k)
    (hk : k < mc) :
    0 ≤ combine_idx mc q k ∧ combine_idx mc q k < pc * mc := by
  unfold combine_idx
  have h1 : (q + 1) * mc ≤ pc * mc := mul_le_mul_of_nonneg_right (by omega) (by omega)
  have h2 : 0 ≤ q * mc := mul_nonneg hq0 (by omega)
  constructor
  · omega
  · nlinarith

theorem triangle_corners_valid (pc mc : Int) (t : Int × Int × Int)
    (ht : t ∈ toTriangles (generateTriangles pc mc [])) :
    ((0 ≤ t.1 ∧ t.1 < pc * mc) ∧ (0 ≤ t.2.1 ∧ t.2.1 < pc * mc) ∧
      (0 ≤ t.2.2 ∧ t.2.2 < pc * mc)) ∧
    (t.1 ≠ t.2.1 ∧ t.1 ≠ t.2.2 ∧ t.2.1 ≠ t.2.2) := by
  obtain ⟨q, k, hq0, hq, hk0, hk, h⟩ := mem_toTriangles_generateTriangles pc mc t ht
  rcases h with ⟨_, rfl⟩ | ⟨_, rfl⟩
  · refine ⟨⟨combine_idx_bounds pc mc q k hq0 (by omega) hk0 (by omega),
      combine_idx_bounds pc mc q (k + 1) hq0 (by omega) (by omega) (by omega),
      combine_idx_bounds pc mc (q + 1) (k + 1) (by omega) (by omega) (by omega) (by omega)⟩, ?_⟩
    simp only [combine_idx]
    have e : (q + 1) * mc = q * mc + mc := by ring
    refine ⟨by omega, by omega, by omega⟩
  · refine ⟨⟨combine_idx_bounds pc mc q k hq0 (by omega) hk0 (by omega),
      combine_idx_bounds pc mc (q + 1) k (by omega) (by omega) hk0 (by omega),
      combine_idx_bounds pc mc (q + 1) (k + 1) (by omega) (by omega) (by omega) (by omega)⟩, ?_⟩
    simp only [combine_idx]
    have e : (q + 1) * mc = q * mc + mc := by ring
    refine ⟨by omega, by omega, by omega⟩

/-- C17: for `parallelCount, meridianCount ≥ 3`, every index emitted by the
sphere triangle generator is a valid position in the generated vertex list
(`0 ≤ index < parallelCount * meridianCount`, the length of the vertex list),
and the three indices of every triangle that `glDrawElements` reads are pairwise
distinct. -/
theorem generateTriangles_indices_valid {K : Type} [Field K] (L : Libm K)
    (parallelCount meridianCount : Int)
    (hp : 3 ≤ parallelCount) (hm : 3 ≤ meridianCount) :
    (∀ i ∈ generateTriangles parallelCount meridianCount [],
      0 ≤ i ∧ i < parallelCount * meridianCount ∧
      i.toNat < (generateVertices L parallelCount meridianCount []).length) ∧
    (∀ t ∈ toTriangles (generateTriangles parallelCount meridianCount []),
      t.1 ≠ t.2.1 ∧ t.1 ≠ t.2.2 ∧ t.2.1 ≠ t.2.2) := by
  have hlen := generateVertices_length L parallelCount meridianCount (by omega) (by omega)
  constructor
  · intro i hi
    obtain ⟨t, ht, hit⟩ := mem_generateTriangles _ _ i hi
    obtain ⟨⟨a, b, c⟩, _⟩ := triangle_corners_valid _ _ t ht
    have hb : 0 ≤ i ∧ i < parallelCount * meridianCount := by
      rcases hit with rfl | rfl | rfl
      · exact a
      · exact b
      · exact c
    refine ⟨hb.1, hb.2, ?_⟩
    have : ((i.toNat : Nat) : Int) <
        (((generateVertices L parallelCount meridianCount []).length : Nat) : Int) := by
      rw [hlen, Int.toNat_of_nonneg hb.1]; exact hb.2
    exact_mod_cast this
  · intro t ht
    exact (triangle_corners_valid _ _ t ht).2

/-- Witness for C17 on the 3 by 3 grid: the emitted index 4 and the emitted
triangle `(0, 3, 4)`. -/
theorem generateTriangles_indices_valid_witness :
    (4 : Int) ∈ generateTriangles 3 3 [] ∧
    ((0 : Int) ≤ 4 ∧ (4 : Int) < 3 * 3 ∧
      (4 : Int).toNat < (generateVertices realLibm 3 3 []).length) ∧
    ((0 : Int), (3 : Int), (4 : Int)) ∈ toTriangles (generateTriangles 3 3 []) ∧
    ((0 : Int) ≠ 3 ∧ (0 : Int) ≠ 4 ∧ (3 : Int) ≠ 4) :=
  have hi : (4 : Int) ∈ generateTriangles 3 3 [] := by
    rw [generateTriangles_eq, List.nil_append]; decide
  have ht : ((0 : Int), (3 : Int), (4 : Int)) ∈ toTriangles (generateTriangles 3 3 []) := by
    rw [generateTriangles_eq, List.nil_append, toTriangles_flatTri]; decide
  ⟨hi, (generateTriangles_indices_valid realLibm 3 3 (by decide) (by decide)).1 4 hi,
    ht, (generateTriangles_indices_valid realLibm 3 3 (by decide) (by decide)).2 _ ht⟩

/-! ### Shared resources are prepared once -/

theorem polyLine_prepare_isPrepared {K : Type} (d : Driver) (w : World K)
    (h : (PolyLine.prepare d w).threw = none) :
    (PolyLine.prepare d w).state.polyLine.isPrepared = true := by
  unfold PolyLine.prepare at h ⊢
  cases hp : w.polyLine.isPrepared
  · simp only [hp, Bool.false_eq_true, if_false] at h ⊢
    generalize ShaderProgram.new d w.gl _ _ = r at h ⊢
    rcases r with ⟨gl, e | p⟩
    · simp at h
    · rfl
  · simp only [if_true, hp]

theorem skyBox_prepare_isPrepared {K : Type} (d : Driver) (w : World K)
    (h : (SkyBox.prepare d w).threw = none) :
    (SkyBox.prepare d w).state.skyBox.isPrepared = true := by
  unfold SkyBox.prepare at h ⊢
  cases hp : w.skyBox.isPrepared
  · simp only [hp, Bool.false_eq_true, if_false] at h ⊢
    generalize ShaderProgram.new d w.gl _ _ = r at h ⊢
    rcases r with ⟨gl, e | p⟩
    · simp at h
    · rfl
  · simp only [if_true, hp]

theorem sphere_prepare_isPrepared {K : Type} [Field K] (L : Libm K) (d : Driver) (w : World K)
    (h : (Sphere.prepare L d w).threw = none) :
    (Sphere.prepare L d w).state.sphere.isPrepared = true := by
  unfold Sphere.prepare at h ⊢
  cases hp : w.sphere.isPrepared
  · simp only [hp, Bool.false_eq_true, if_false] at h ⊢
    generalize ShaderProgram.new d w.gl _ _ = r at h ⊢
    rcases r with ⟨gl, e | p⟩
    · simp at h
    · rfl
  · simp only [if_true, hp]

theorem polyLine_prepare_of_isPrepared {K : Type} (d : Driver) (w : World K)
    (h : w.polyLine.isPrepared = true) : PolyLine.prepare d w = ⟨w, none⟩ := by
  unfold PolyLine.prepare
  simp only [h, if_true]

theorem skyBox_prepare_of_isPrepared {K : Type} (d : Driver) (w : World K)
    (h : w.skyBox.isPrepared = true) : SkyBox.prepare d w = ⟨w, none⟩ := by
  unfold SkyBox.prepare
  simp only [h, if_true]

theorem sphere_prepare_of_isPrepared {K : Type} [Field K] (L : Libm K) (d : Driver)
    (w : World K) (h : w.sphere.isPrepared = true) : Sphere.prepare L d w = ⟨w, none⟩ := by
  unfold Sphere.prepare
  simp only [h, if_true]

theorem sphere_prepare_initial_ok (dir : String) :
    (Sphere.prepare realLibm Driver.allGood (World.initial ℝ dir)).threw = none := by
  simp [Sphere.prepare, World.initial, ShaderProgram.new, loadAndCompileShader,
    Driver.allGood]

theorem polyLine_prepare_initial_ok (dir : String) :
    (PolyLine.prepare Driver.allGood (World.initial ℝ dir)).threw = none := by
  simp [PolyLine.prepare, World.initial, ShaderProgram.new, loadAndCompileShader,
    Driver.allGood]

theorem skyBox_prepare_initial_ok (dir : String) :
    (SkyBox.prepare Driver.allGood (World.initial ℝ dir)).threw = none := by
  simp [SkyBox.prepare, World.initial, ShaderProgram.new, loadAndCompileShader,
    Driver.allGood]

theorem sphere_prepare_initial_counts (dir : String) :
    (Sphere.prepare realLibm Driver.allGood (World.initial ℝ dir)).state.gl.programs = 1 ∧
    (Sphere.prepare realLibm Driver.allGood (World.initial ℝ dir)).state.gl.buffers = 2 ∧
    (Sphere.prepare realLibm Driver.allGood (World.initial ℝ dir)).state.gl.vertexArrays = 1 := by
  simp [Sphere.prepare, World.initial, ShaderProgram.new, loadAndCompileShader,
    Driver.allGood, glGenBuffers, glGenVertexArrays, GLState.call, ShaderProgram.use]

/-! ### Binary32 rounding -/

section RoundingProofs

variable {K : Type} [LinearOrderedField K] [FloorRing K]

theorem int_log_two_eq (y : K) (e : ℤ) (hy : 0 < y) (h1 : (2 : K) ^ e ≤ y)
    (h2 : y < (2 : K) ^ (e + 1)) : Int.log 2 y = e := by
  have hb : 1 < (2 : ℕ) := by norm_num
  have a : e ≤ Int.log 2 y := (Int.zpow_le_iff_le_log hb hy).mp (by exact_mod_cast h1)
  have b : Int.log 2 y < e + 1 := (Int.lt_zpow_iff_log_lt hb hy).mp (by exact_mod_cast h2)
  omega

theorem roundNearestEven_of_lt (q : K) (f : ℤ) (h1 : (f : K) ≤ q) (h2 : q < f + 1 / 2) :
    roundNearestEven q = f := by
  have hf : ⌊q⌋ = f := Int.floor_eq_iff.mpr ⟨h1, by linarith⟩
  unfold roundNearestEven
  rw [hf, if_pos (by linarith)]

theorem roundNearestEven_of_gt (q : K) (f : ℤ) (h1 : (f : K) + 1 / 2 < q) (h2 : q < f + 1) :
    roundNearestEven q = f + 1 := by
  have hf : ⌊q⌋ = f := Int.floor_eq_iff.mpr ⟨by linarith, h2⟩
  unfold roundNearestEven
  rw [hf, if_neg (by linarith), if_pos (by linarith)]

theorem roundNearestEven_intCast (n : ℤ) : roundNearestEven (n : K) = n :=
  roundNearestEven_of_lt _ n (le_refl _) (by linarith)

theorem round32_zero : round32 (0 : K) = 0 := by
  unfold round32
  rw [if_pos rfl]

theorem round32_eq (x : K) (e n : ℤ) (hx : x ≠ 0) (h1 : (2 : K) ^ e ≤ |x|)
    (h2 : |x| < (2 : K) ^ (e + 1)) (he : -126 ≤ e)
    (hn : roundNearestEven (x / (2 : K) ^ (e - 23)) = n) :
    round32 x = (n : K) * (2 : K) ^ (e - 23) := by
  have hlog := int_log_two_eq |x| e (abs_pos.mpr hx) h1 h2
  unfold round32
  rw [if_neg hx, hlog, max_eq_left he, hn]

theorem round32_intCast (n : ℤ) (hn : |n| < 2 ^ 24) : round32 ((n : ℤ) : K) = n := by
  by_cases h0 : n = 0
  · subst h0
    simp only [Int.cast_zero]
    exact round32_zero
  have hb : 1 < (2 : ℕ) := by norm_num
  have hx : ((n : ℤ) : K) ≠ 0 := by exact_mod_cast h0
  have habs : |((n : ℤ) : K)| = ((|n| : ℤ) : K) := by simp
  have hpos : (0 : K) < |((n : ℤ) : K)| := abs_pos.mpr hx
  have h1 : (1 : ℤ) ≤ |n| := Int.one_le_abs h0
  have hlo : 0 ≤ Int.log 2 |((n : ℤ) : K)| := by
    apply (Int.zpow_le_iff_le_log hb hpos).mp
    rw [habs]
    simp only [zpow_zero]
    exact_mod_cast h1
  have hhi : Int.log 2 |((n : ℤ) : K)| < 24 := by
    apply (Int.lt_zpow_iff_log_lt hb hpos).mp
    rw [habs]
    have h24 : (((2 : ℕ) : K)) ^ (24 : ℤ) = ((16777216 : ℤ) : K) := by norm_num
    have hn2 : |n| < 16777216 := by norm_num at hn ⊢; exact hn
    rw [h24]
    exact Int.cast_lt.mpr hn2
  obtain ⟨d, hd⟩ : ∃ d : ℕ, Int.log 2 |((n : ℤ) : K)| - 23 = -(d : ℤ) :=
    ⟨(23 - Int.log 2 |((n : ℤ) : K)|).toNat, by omega⟩
  unfold round32
  rw [if_neg hx, max_eq_left (by omega), hd, zpow_neg, zpow_natCast]
  have hq : ((n : ℤ) : K) / ((2 : K) ^ d)⁻¹ = ((n * 2 ^ d : ℤ) : K) := by
    rw [div_inv_eq_mul]
    push_cast
    ring
  rw [hq, roundNearestEven_intCast]
  push_cast
  have h2 : ((2 : K) ^ d) ≠ 0 := pow_ne_zero _ (by norm_num)
  field_simp

end RoundingProofs

section YawFloatProofs

variable {K : Type} [LinearOrderedField K]

theorem yawWrapUpFl_of_nonneg (fl : K → K) (fuel : Nat) (yaw : K) (h : 0 ≤ yaw) :
    yawWrapUpFl fl fuel yaw = some yaw := by
  cases fuel <;> simp [yawWrapUpFl, not_lt.mpr h]

theorem yawWrapDownFl_of_le (fl : K → K) (fuel : Nat) (yaw : K) (h : yaw ≤ 360) :
    yawWrapDownFl fl fuel yaw = some yaw := by
  cases fuel <;> simp [yawWrapDownFl, not_lt.mpr h]

end YawFloatProofs

section YawExactLink

variable {K : Type} [LinearOrderedField K] [FloorRing K]

theorem yawWrapUpFl_id (yaw : K) :
    ∃ n : ℕ, ∀ m : ℕ, n ≤ m → yawWrapUpFl id m yaw = some (yawWrapUp yaw) := by
  induction yaw using yawWrapUp.induct with
  | case1 x hx ih =>
    obtain ⟨n, hn⟩ := ih
    refine ⟨n + 1, fun m hm => ?_⟩
    obtain ⟨m', rfl⟩ : ∃ m', m = m' + 1 := ⟨m - 1, by omega⟩
    rw [yawWrapUpFl, if_pos hx, yawWrapUp, if_pos hx]
    exact hn m' (by omega)
  | case2 x hx =>
    refine ⟨0, fun m _ => ?_⟩
    rw [yawWrapUp, if_neg hx]
    exact yawWrapUpFl_of_nonneg id m x (not_lt.mp hx)

theorem yawWrapDownFl_id (yaw : K) :
    ∃ n : ℕ, ∀ m : ℕ, n ≤ m → yawWrapDownFl id m yaw = some (yawWrapDown yaw) := by
  induction yaw using yawWrapDown.induct with
  | case1 x hx ih =>
    obtain ⟨n, hn⟩ := ih
    refine ⟨n + 1, fun m hm => ?_⟩
    obtain ⟨m', rfl⟩ : ∃ m', m = m' + 1 := ⟨m - 1, by omega⟩
    rw [yawWrapDownFl, if_pos hx, yawWrapDown, if_pos hx]
    exact hn m' (by omega)
  | case2 x hx =>
    refine ⟨0, fun m _ => ?_⟩
    rw [yawWrapDown, if_neg hx]
    exact yawWrapDownFl_of_le id m x (not_lt.mp hx)

theorem normalizeYawFl_id (L : Libm K) (cam : Camera K) :
    ∃ n : ℕ, ∀ m : ℕ, n ≤ m → normalizeYawFl id m cam.yaw = some (cam.update L).yaw := by
  obtain ⟨a, ha⟩ := yawWrapUpFl_id cam.yaw
  obtain ⟨b, hb⟩ := yawWrapDownFl_id (yawWrapUp cam.yaw)
  refine ⟨max a b, fun m hm => ?_⟩
  rw [normalizeYawFl, ha m (le_trans (le_max_left _ _) hm), Option.some_bind,
    hb m (le_trans (le_max_right _ _) hm), Camera.update_yaw]

end YawExactLink

/-! ### The binary32 maths library at the closing angle -/

section RoundingBounds

variable {K : Type} [LinearOrderedField K] [FloorRing K]

theorem le_roundNearestEven (q : K) : ⌊q⌋ ≤ roundNearestEven q := by
  unfold roundNearestEven
  split_ifs <;> omega

theorem round32_pos (y : K) (h : (2 : K) ^ (-126 : ℤ) ≤ y) : 0 < round32 y := by
  have hb : 1 < (2 : ℕ) := by norm_num
  have hy : 0 < y := lt_of_lt_of_le (zpow_pos (by norm_num) _) h
  have habs : |y| = y := abs_of_pos hy
  have hlog : (-126 : ℤ) ≤ Int.log 2 y :=
    (Int.zpow_le_iff_le_log hb hy).mp (by exact_mod_cast h)
  have hle : (2 : K) ^ Int.log 2 y ≤ y := by
    have := Int.zpow_log_le_self (R := K) hb hy
    exact_mod_cast this
  have hulp : (0 : K) < (2 : K) ^ (Int.log 2 y - 23) := zpow_pos (by norm_num) _
  have hq : (1 : K) ≤ y / (2 : K) ^ (Int.log 2 y - 23) := by
    rw [le_div_iff₀ hulp, one_mul]
    refine le_trans ?_ hle
    exact zpow_le_zpow_right₀ (by norm_num) (by omega)
  have hfloor : (1 : ℤ) ≤ ⌊y / (2 : K) ^ (Int.log 2 y - 23)⌋ := Int.le_floor.mpr (by exact_mod_cast hq)
  have hr := le_roundNearestEven (y / (2 : K) ^ (Int.log 2 y - 23))
  unfold round32
  rw [if_neg hy.ne', habs, max_eq_left hlog]
  apply mul_pos _ hulp
  exact_mod_cast (by omega : (0 : ℤ) < roundNearestEven (y / (2 : K) ^ (Int.log 2 y - 23)))

theorem round32_near_one (y : K) (h1 : 1 - 1 / 2 ^ 25 < y) (h2 : y ≤ 1) : round32 y = 1 := by
  rcases eq_or_lt_of_le h2 with rfl | hlt
  · have := round32_intCast (K := K) 1 (by norm_num)
    simpa using this
  have hy : 0 < y := by
    have : (0 : K) < 1 - 1 / 2 ^ 25 := by norm_num
    linarith
  have hn : roundNearestEven (y / (2 : K) ^ ((-1 : ℤ) - 23)) = 16777215 + 1 := by
    have e : y / (2 : K) ^ ((-1 : ℤ) - 23) = y * 16777216 := by
      rw [show ((-1 : ℤ) - 23) = -24 by norm_num, zpow_neg, div_inv_eq_mul]
      norm_num
    rw [e]
    apply roundNearestEven_of_gt
    · norm_num at h1 ⊢; linarith
    · norm_num; linarith
  rw [round32_eq y (-1) (16777215 + 1) hy.ne' (by rw [abs_of_pos hy]; norm_num at h1 ⊢; linarith)
    (by rw [abs_of_pos hy]; norm_num; exact hlt) (by norm_num) hn]
  norm_num

end RoundingBounds

theorem closing_angle_excess :
    (1 / 10 ^ 7 : ℝ) < 2 * (13176795 / 4194304) - 2 * Real.pi ∧
    2 * (13176795 / 4194304) - 2 * Real.pi < 2 / 10 ^ 7 := by
  have h1 := Real.pi_gt_d20
  have h2 := Real.pi_lt_d20
  constructor
  · norm_num at h1 h2 ⊢; linarith
  · norm_num at h1 h2 ⊢; linarith

theorem floatLibm_sin_zero : floatLibm.sin 0 = 0 := by
  simp only [floatLibm, Real.sin_zero]
  exact round32_zero

theorem floatLibm_cos_zero : floatLibm.cos 0 = 1 := by
  simp only [floatLibm, Real.cos_zero]
  exact round32_near_one 1 (by norm_num) (le_refl _)

theorem floatLibm_sin_two_pi : 0 < floatLibm.sin (2 * floatLibm.pi) := by
  obtain ⟨h1, h2⟩ := closing_angle_excess
  simp only [floatLibm]
  apply round32_pos
  rw [← Real.sin_sub_two_pi]
  have hpos : (0 : ℝ) < 2 * (13176795 / 4194304) - 2 * Real.pi := by linarith
  have hs := Real.sin_gt_sub_cube hpos (by linarith)
  have hsmall : (2 : ℝ) ^ (-126 : ℤ) ≤ 1 / 10 ^ 8 := by
    rw [zpow_neg]
    norm_num
  have hcube : (2 * (13176795 / 4194304) - 2 * Real.pi) ^ 3 / 4 ≤ 1 / 10 ^ 8 := by
    have : (2 * (13176795 / 4194304) - 2 * Real.pi) ^ 3 ≤ (2 / 10 ^ 7) ^ 3 :=
      pow_le_pow_left₀ hpos.le h2.le 3
    norm_num at this ⊢
    linarith
  linarith

section CirclePoints

variable {K : Type} [LinearOrderedField K]

end CirclePoints

section SeamPoints

variable {K : Type} [LinearOrderedField K]

theorem sphereVertex_first (L : Libm K) (pc mc q : Int) :
    sphereVertex L pc mc q 0 =
      { p := ⟨L.cos (rowLatitude L pc q) * L.sin 0, L.sin (rowLatitude L pc q),
              L.cos (rowLatitude L pc q) * L.cos 0⟩
        texp := ⟨0, (q : K) / ((pc - 1 : Int) : K)⟩ } := by
  simp [sphereVertex, rowLatitude]

theorem sphereVertex_last (L : Libm K) (pc mc q : Int) (hm : 3 ≤ mc) :
    sphereVertex L pc mc q (mc - 1) =
      { p := ⟨L.cos (rowLatitude L pc q) * L.sin (L.pi * 2), L.sin (rowLatitude L pc q),
              L.cos (rowLatitude L pc q) * L.cos (L.pi * 2)⟩
        texp := ⟨1, (q : K) / ((pc - 1 : Int) : K)⟩ } := by
  have hne : (((mc - 1 : Int) : K)) ≠ 0 := by
    have : (mc - 1 : Int) ≠ 0 := by omega
    exact_mod_cast this
  have h1 : L.pi * 2 * ((mc - 1 : Int) : K) / ((mc - 1 : Int) : K) = L.pi * 2 := by
    rw [mul_div_assoc, div_self hne, mul_one]
  simp only [sphereVertex, rowLatitude, h1, div_self hne]

/-- C10 (amended): for `parallelCount, meridianCount ≥ 3` and every parallel
row, the generated sphere vertex at `meridian = 0` and the one at
`meridian = meridianCount - 1` have the same `y` position component and the same
second texture coordinate `parallel / (parallelCount - 1)`; their first texture
coordinates are `0` and `1`; their `x` and `z` position components are
`cos(lat) * sin(lon)` and `cos(lat) * cos(lon)` at the longitudes `0` and
`2 * M_PI` respectively. -/
theorem seam_vertices (L : Libm K) (parallelCount meridianCount parallel : Int)
    (_hp : 3 ≤ parallelCount) (hm : 3 ≤ meridianCount)
    (h0 : 0 ≤ parallel) (h1 : parallel < parallelCount) :
    ∃ first last : TexturedVertex K,
      (generateVertices L parallelCount meridianCount [])[
          (parallel * meridianCount + 0).toNat]? = some first ∧
      (generateVertices L parallelCount meridianCount [])[
          (parallel * meridianCount + (meridianCount - 1)).toNat]? = some last ∧
      first.p.y = last.p.y ∧
      first.p = ⟨L.cos (rowLatitude L parallelCount parallel) * L.sin 0,
        L.sin (rowLatitude L parallelCount parallel),
        L.cos (rowLatitude L parallelCount parallel) * L.cos 0⟩ ∧
      last.p = ⟨L.cos (rowLatitude L parallelCount parallel) * L.sin (L.pi * 2),
        L.sin (rowLatitude L parallelCount parallel),
        L.cos (rowLatitude L parallelCount parallel) * L.cos (L.pi * 2)⟩ ∧
      first.texp = { x := 0, y := (parallel : K) / ((parallelCount - 1 : Int) : K) } ∧
      last.texp = { x := 1, y := (parallel : K) / ((parallelCount - 1 : Int) : K) } := by
  refine ⟨_, _,
    generateVertices_getElem L _ _ parallel 0 h0 h1 (le_refl _) (by omega),
    generateVertices_getElem L _ _ parallel (meridianCount - 1) h0 h1 (by omega) (by omega),
    ?_, ?_, ?_, ?_, ?_⟩
  · rw [sphereVertex_first, sphereVertex_last L _ _ _ hm]
  · rw [sphereVertex_first]
  · rw [sphereVertex_last L _ _ _ hm]
  · rw [sphereVertex_first]
  · rw [sphereVertex_last L _ _ _ hm]

end SeamPoints

theorem rowLatitude_equator : rowLatitude floatLibm 3 1 = 0 := by
  simp only [rowLatitude]
  norm_num

/-- C10 (as stated, refuted): on the 3 by 3 grid, row 1, in binary32, the vertex
at `meridian = 0` (position 3 of the list) has texture coordinate `(0, 1/2)` and
`x = 0`, while the vertex at `meridian = 2` (position 5) has texture coordinate
`(1, 1/2)` and `x = sin (2 * M_PI) > 0`: neither the texture coordinates nor the
positions are the same. -/
theorem seam_counterexample :
    (((generateVertices floatLibm 3 3 [])[3]?).map (fun v => v.texp) =
        some { x := 0, y := 1 / 2 } ∧
      ((generateVertices floatLibm 3 3 [])[5]?).map (fun v => v.texp) =
        some { x := 1, y := 1 / 2 } ∧
      ({ x := 0, y := 1 / 2 } : Vec2 ℝ) ≠ { x := 1, y := 1 / 2 }) ∧
    (((generateVertices floatLibm 3 3 [])[3]?).map (fun v => v.p.x) = some 0 ∧
      ((generateVertices floatLibm 3 3 [])[5]?).map (fun v => v.p.x) =
        some (floatLibm.sin (2 * floatLibm.pi)) ∧
      0 < floatLibm.sin (2 * floatLibm.pi)) := by
  have e3 := generateVertices_getElem floatLibm 3 3 1 0
    (by decide) (by decide) (by decide) (by decide)
  have e5 := generateVertices_getElem floatLibm 3 3 1 (3 - 1)
    (by decide) (by decide) (by decide) (by decide)
  have i3 : ((1 : Int) * 3 + 0).toNat = 3 := by decide
  have i5 : ((1 : Int) * 3 + (3 - 1)).toNat = 5 := by decide
  rw [i3, sphereVertex_first, rowLatitude_equator, floatLibm_cos_zero, floatLibm_sin_zero] at e3
  rw [i5, sphereVertex_last floatLibm 3 3 1 (by decide), rowLatitude_equator,
    floatLibm_cos_zero, floatLibm_sin_zero, mul_comm floatLibm.pi 2] at e5
  refine ⟨⟨?_, ?_, ?_⟩, ?_, ?_, floatLibm_sin_two_pi⟩
  · rw [e3]; norm_num
  · rw [e5]; norm_num
  · intro h
    have hx := congrArg Vec2.x h
    norm_num at hx
  · rw [e3]; norm_num
  · rw [e5]; norm_num

/-- Witness for the amended C10 at the program's own counts, 50 by 50, for
row 7, in binary32. -/
theorem seam_vertices_witness :
    ∃ first last : TexturedVertex ℝ,
      (generateVertices floatLibm 50 50 [])[((7 : Int) * 50 + 0).toNat]? = some first ∧
      (generateVertices floatLibm 50 50 [])[((7 : Int) * 50 + (50 - 1)).toNat]? = some last ∧
      first.p.y = last.p.y ∧
      first.texp = { x := 0, y := ((7 : Int) : ℝ) / ((50 - 1 : Int) : ℝ) } ∧
      last.texp = { x := 1, y := ((7 : Int) : ℝ) / ((50 - 1 : Int) : ℝ) } := by
  obtain ⟨first, last, a, b, c, _, _, d, e⟩ :=
    seam_vertices floatLibm 50 50 7 (by decide) (by decide) (by decide) (by decide)
  exact ⟨first, last, a, b, c, d, e⟩

/-! ### The elementary transforms -/

section ElementaryProofs

variable {K : Type} [Field K]

theorem glm_translate_eq_translationMatrix (m : Mat4 K) (v : Vec3 K) :
    glm_translate m v = m.mul (translationMatrix v) := by
  ext <;> simp only [glm_translate, Mat4.mul, translationMatrix, Vec4.add, Vec4.smul] <;> ring

theorem glm_scale_eq_scalingMatrix (m : Mat4 K) (x y z : K) :
    glm_scale m ⟨x, y, z⟩ = m.mul (scalingMatrix x y z) := by
  ext <;> simp only [glm_scale, Mat4.mul, scalingMatrix, Vec4.add, Vec4.smul] <;> ring

theorem glm_rotate_eq_rotationMatrix (L : Libm K) (m : Mat4 K) (angle : K) (v : Vec3 K) :
    glm_rotate L m angle v =
      m.mul (rotationMatrix (L.cos angle) (L.sin angle) (glm_normalize L v)) := by
  ext <;> simp only [glm_rotate, Mat4.mul, rotationMatrix, rotateAbout, glm_dot, glm_cross,
    Vec3.toDirection, Vec3.add, Vec3.smul, Vec4.add, Vec4.smul] <;> ring

theorem translationMatrix_mulVec (t p : Vec3 K) :
    (translationMatrix t).mulVec p.toPoint = (p.add t).toPoint := by
  ext <;> simp only [translationMatrix, Mat4.mulVec, Vec4.add, Vec4.smul, Vec3.toPoint,
    Vec3.add] <;> ring

theorem scalingMatrix_mulVec (x y z : K) (p : Vec3 K) :
    (scalingMatrix x y z).mulVec p.toPoint = ⟨x * p.x, y * p.y, z * p.z, 1⟩ := by
  ext <;> simp only [scalingMatrix, Mat4.mulVec, Vec4.add, Vec4.smul, Vec3.toPoint] <;> ring

theorem rotationMatrix_mulVec (c s : K) (n p : Vec3 K) :
    (rotationMatrix c s n).mulVec p.toPoint = (rotateAbout c s n p).toPoint := by
  ext <;> simp only [rotationMatrix, rotateAbout, glm_dot, glm_cross, Mat4.mulVec,
    Vec3.toDirection, Vec3.toPoint, Vec3.add, Vec3.smul, Vec4.add, Vec4.smul] <;> ring

theorem Mat4.identity_mul (m : Mat4 K) : Mat4.identity.mul m = m := by
  ext <;> simp only [Mat4.mul, Mat4.identity, Vec4.add, Vec4.smul] <;> ring

theorem rotate_translate_mulVec (L : Libm K) (angle : K) (axis t p : Vec3 K) :
    (glm_translate (glm_rotate L Mat4.identity angle axis) t).mulVec p.toPoint =
      (rotateAbout (L.cos angle) (L.sin angle) (glm_normalize L axis) (p.add t)).toPoint := by
  rw [glm_translate_eq_translationMatrix, Mat4.mul_mulVec, translationMatrix_mulVec,
    glm_rotate_eq_rotationMatrix, Mat4.identity_mul, rotationMatrix_mulVec]

theorem translate_rotate_mulVec (L : Libm K) (angle : K) (axis t p : Vec3 K) :
    (glm_rotate L (glm_translate Mat4.identity t) angle axis).mulVec p.toPoint =
      ((rotateAbout (L.cos angle) (L.sin angle) (glm_normalize L axis) p).add t).toPoint := by
  rw [glm_rotate_eq_rotationMatrix, Mat4.mul_mulVec, rotationMatrix_mulVec,
    glm_translate_eq_translationMatrix, Mat4.identity_mul, translationMatrix_mulVec]

theorem rotateAbout_dot (c s : K) (n p q : Vec3 K) (hunit : glm_dot n n = 1)
    (htrig : c ^ 2 + s ^ 2 = 1) :
    glm_dot (rotateAbout c s n p) (rotateAbout c s n q) = glm_dot p q := by
  simp only [rotateAbout, glm_dot, glm_cross, Vec3.add, Vec3.smul] at hunit ⊢
  linear_combination
    ((1 - c) ^ 2 * (n.x * p.x + n.y * p.y + n.z * p.z) * (n.x * q.x + n.y * q.y + n.z * q.z) +
      s ^ 2 * (p.x * q.x + p.y * q.y + p.z * q.z)) * hunit +
    ((p.x * q.x + p.y * q.y + p.z * q.z) -
      (n.x * p.x + n.y * p.y + n.z * p.z) * (n.x * q.x + n.y * q.y + n.z * q.z)) * htrig

theorem rotateAbout_axis (L : Libm K) (c s : K) (axis : Vec3 K)
    (hunit : glm_dot (glm_normalize L axis) (glm_normalize L axis) = 1) :
    rotateAbout c s (glm_normalize L axis) axis = axis := by
  simp only [glm_normalize, glm_dot, Vec3.smul] at hunit
  ext <;> simp only [rotateAbout, glm_normalize, glm_dot, glm_cross, Vec3.add, Vec3.smul]
  · linear_combination ((1 - c) * axis.x) * hunit
  · linear_combination ((1 - c) * axis.y) * hunit
  · linear_combination ((1 - c) * axis.z) * hunit

theorem rotateAbout_perp (L : Libm K) (c s : K) (axis p : Vec3 K)
    (hunit : glm_dot (glm_normalize L axis) (glm_normalize L axis) = 1)
    (hperp : glm_dot axis p = 0) :
    glm_dot p (rotateAbout c s (glm_normalize L axis) p) = c * glm_dot p p ∧
    glm_dot (glm_cross (glm_normalize L axis) p) (rotateAbout c s (glm_normalize L axis) p) =
      s * glm_dot p p := by
  simp only [glm_normalize, glm_dot, Vec3.smul] at hunit hperp
  constructor
  · simp only [rotateAbout, glm_normalize, glm_dot, glm_cross, Vec3.add, Vec3.smul]
    linear_combination
      ((1 - c) * (glm_inversesqrt L (axis.x * axis.x + axis.y * axis.y + axis.z * axis.z)) ^ 2 *
        (axis.x * p.x + axis.y * p.y + axis.z * p.z)) * hperp
  · simp only [rotateAbout, glm_normalize, glm_dot, glm_cross, Vec3.add, Vec3.smul]
    linear_combination
      (s * (p.x * p.x + p.y * p.y + p.z * p.z)) * hunit -
      (s * (glm_inversesqrt L (axis.x * axis.x + axis.y * axis.y + axis.z * axis.z)) ^ 2 *
        (axis.x * p.x + axis.y * p.y + axis.z * p.z)) * hperp

end ElementaryProofs

theorem glm_normalize_real_unit (axis : Vec3 ℝ) (h : axis ≠ ⟨0, 0, 0⟩) :
    glm_dot (glm_normalize realLibm axis) (glm_normalize realLibm axis) = 1 := by
  have hx := mul_self_nonneg axis.x
  have hy := mul_self_nonneg axis.y
  have hz := mul_self_nonneg axis.z
  have hpos : 0 < axis.x * axis.x + axis.y * axis.y + axis.z * axis.z := by
    by_contra hcon
    have h0 : axis.x * axis.x + axis.y * axis.y + axis.z * axis.z ≤ 0 := not_lt.mp hcon
    apply h
    ext
    · exact mul_self_eq_zero.mp (by linarith)
    · exact mul_self_eq_zero.mp (by linarith)
    · exact mul_self_eq_zero.mp (by linarith)
  have hs := Real.mul_self_sqrt hpos.le
  have hne : Real.sqrt (axis.x * axis.x + axis.y * axis.y + axis.z * axis.z) ≠ 0 :=
    (Real.sqrt_pos.mpr hpos).ne'
  simp only [glm_normalize, glm_inversesqrt, glm_dot, Vec3.smul, realLibm]
  field_simp

/-- C5: each of `translate`, `rotate` and `scale` right-multiplies the current
model matrix by the elementary matrix of the operation: the translation by `T`,
the rotation `R` by `angle` about `axis` (Rodrigues' formula on the normalised
axis), the scaling `diag(sx, sy, sz, 1)`.  So the effect on a point is in reverse
call order: the matrix built by `resetTransform().rotate(R).translate(T)` maps
`p` to `R(p + T)`, and the one built by `resetTransform().translate(T).rotate(R)`
maps `p` to `R(p) + T`, for `Sphere` and for `PolyLine`.  When the maths library
is exact (`cos^2 + sin^2 = 1`, normalised axis of unit length), `R` fixes the
axis, preserves scalar products and turns the vectors perpendicular to the axis
by `angle`; real arithmetic is exact in this sense for every angle and every
non-zero axis. -/
theorem transform_reverse_order {K : Type} [Field K] (L : Libm K) (s : Sphere K)
    (l : PolyLine K) (T : Vec3 K) (angle : K) (axis : Vec3 K) (p : Vec3 K) (sx sy sz : K) :
    ((s.translate T).modelTransform = s.modelTransform.mul (translationMatrix T) ∧
      (s.rotate L angle axis).modelTransform =
        s.modelTransform.mul
          (rotationMatrix (L.cos angle) (L.sin angle) (glm_normalize L axis)) ∧
      (l.translate T).modelTransform = l.modelTransform.mul (translationMatrix T) ∧
      (l.rotate L angle axis).modelTransform =
        l.modelTransform.mul
          (rotationMatrix (L.cos angle) (L.sin angle) (glm_normalize L axis)) ∧
      (l.scale sx sy sz).modelTransform = l.modelTransform.mul (scalingMatrix sx sy sz)) ∧
    ((translationMatrix T).mulVec p.toPoint = (p.add T).toPoint ∧
      (rotationMatrix (L.cos angle) (L.sin angle) (glm_normalize L axis)).mulVec p.toPoint =
        (rotateAbout (L.cos angle) (L.sin angle) (glm_normalize L axis) p).toPoint ∧
      (scalingMatrix sx sy sz).mulVec p.toPoint = ⟨sx * p.x, sy * p.y, sz * p.z, 1⟩) ∧
    (((s.resetTransform.rotate L angle axis).translate T).modelTransform.mulVec p.toPoint =
        (rotateAbout (L.cos angle) (L.sin angle) (glm_normalize L axis) (p.add T)).toPoint ∧
      ((s.resetTransform.translate T).rotate L angle axis).modelTransform.mulVec p.toPoint =
        ((rotateAbout (L.cos angle) (L.sin angle) (glm_normalize L axis) p).add T).toPoint ∧
      ((l.resetTransform.rotate L angle axis).translate T).modelTransform.mulVec p.toPoint =
        (rotateAbout (L.cos angle) (L.sin angle) (glm_normalize L axis) (p.add T)).toPoint ∧
      ((l.resetTransform.translate T).rotate L angle axis).modelTransform.mulVec p.toPoint =
        ((rotateAbout (L.cos angle) (L.sin angle) (glm_normalize L axis) p).add T).toPoint) ∧
    (L.cos angle ^ 2 + L.sin angle ^ 2 = 1 →
      glm_dot (glm_normalize L axis) (glm_normalize L axis) = 1 →
      rotateAbout (L.cos angle) (L.sin angle) (glm_normalize L axis) axis = axis ∧
      (∀ u v : Vec3 K,
        glm_dot (rotateAbout (L.cos angle) (L.sin angle) (glm_normalize L axis) u)
            (rotateAbout (L.cos angle) (L.sin angle) (glm_normalize L axis) v) =
          glm_dot u v) ∧
      (∀ u : Vec3 K, glm_dot axis u = 0 →
        glm_dot u (rotateAbout (L.cos angle) (L.sin angle) (glm_normalize L axis) u) =
          L.cos angle * glm_dot u u ∧
        glm_dot (glm_cross (glm_normalize L axis) u)
            (rotateAbout (L.cos angle) (L.sin angle) (glm_normalize L axis) u) =
          L.sin angle * glm_dot u u)) ∧
    (∀ (a : ℝ) (ax : Vec3 ℝ), ax ≠ ⟨0, 0, 0⟩ →
      realLibm.cos a ^ 2 + realLibm.sin a ^ 2 = 1 ∧
      glm_dot (glm_normalize realLibm ax) (glm_normalize realLibm ax) = 1) := by
  refine ⟨⟨?_, ?_, ?_, ?_, ?_⟩, ⟨?_, ?_, ?_⟩, ⟨?_, ?_, ?_, ?_⟩, ?_, ?_⟩
  · exact glm_translate_eq_translationMatrix _ _
  · exact glm_rotate_eq_rotationMatrix _ _ _ _
  · exact glm_translate_eq_translationMatrix _ _
  · exact glm_rotate_eq_rotationMatrix _ _ _ _
  · exact glm_scale_eq_scalingMatrix _ _ _ _
  · exact translationMatrix_mulVec _ _
  · exact rotationMatrix_mulVec _ _ _ _
  · exact scalingMatrix_mulVec _ _ _ _
  · exact rotate_translate_mulVec L angle axis T p
  · exact translate_rotate_mulVec L angle axis T p
  · exact rotate_translate_mulVec L angle axis T p
  · exact translate_rotate_mulVec L angle axis T p
  · intro htrig hunit
    exact ⟨rotateAbout_axis L _ _ axis hunit,
      fun u v => rotateAbout_dot _ _ _ u v hunit htrig,
      fun u hu => rotateAbout_perp L _ _ axis u hunit hu⟩
  · intro a ax hax
    exact ⟨Real.cos_sq_add_sin_sq a, glm_normalize_real_unit ax hax⟩

/-- Witness for C5 on the sphere `earth` in real arithmetic: rotation by 1
radian about the Y axis, translation `(7,0,0)`, point `(0,0,3)`; the rotation
fixes the Y axis and turns the point, which is perpendicular to the axis, by
1 radian. -/
theorem transform_reverse_order_witness :
    (((earth (K := ℝ)).resetTransform.rotate realLibm 1 ⟨0, 1, 0⟩).translate
        ⟨7, 0, 0⟩).modelTransform.mulVec (Vec3.toPoint ⟨0, 0, 3⟩) =
      (rotateAbout (realLibm.cos 1) (realLibm.sin 1) (glm_normalize realLibm ⟨0, 1, 0⟩)
        (Vec3.add ⟨0, 0, 3⟩ ⟨7, 0, 0⟩)).toPoint ∧
    rotateAbout (realLibm.cos 1) (realLibm.sin 1) (glm_normalize realLibm ⟨0, 1, 0⟩)
        ⟨0, 1, 0⟩ = ⟨0, 1, 0⟩ ∧
    glm_dot ⟨0, 0, 3⟩
        (rotateAbout (realLibm.cos 1) (realLibm.sin 1) (glm_normalize realLibm ⟨0, 1, 0⟩)
          ⟨0, 0, 3⟩) = realLibm.cos 1 * glm_dot (⟨0, 0, 3⟩ : Vec3 ℝ) ⟨0, 0, 3⟩ :=
  have hne : (⟨0, 1, 0⟩ : Vec3 ℝ) ≠ ⟨0, 0, 0⟩ := by
    intro h
    have hy := congrArg Vec3.y h
    norm_num at hy
  have hall := transform_reverse_order realLibm earth ⟨Mat4.identity, [], ⟨1, 1, 1, 1⟩⟩
    ⟨7, 0, 0⟩ 1 ⟨0, 1, 0⟩ ⟨0, 0, 3⟩ 1 1 1
  have hex := hall.2.2.2.2 1 ⟨0, 1, 0⟩ hne
  have hrot := hall.2.2.2.1 hex.1 hex.2
  ⟨hall.2.2.1.1, hrot.1, (hrot.2.2 ⟨0, 0, 3⟩ (by simp [glm_dot])).1⟩

/-! ### What the first prepare() allocates -/

theorem loadAndCompileShader_counters (d : Driver) (gl : GLState) (sourcePath : String)
    (shaderType : Nat) :
    (loadAndCompileShader d gl sourcePath shaderType).1.programs = gl.programs ∧
    (loadAndCompileShader d gl sourcePath shaderType).1.buffers = gl.buffers ∧
    (loadAndCompileShader d gl sourcePath shaderType).1.vertexArrays = gl.vertexArrays := by
  unfold loadAndCompileShader
  cases d.readFromFile sourcePath with
  | none => exact ⟨rfl, rfl, rfl⟩
  | some source =>
    simp only
    split_ifs <;> exact ⟨rfl, rfl, rfl⟩

theorem shaderProgram_new_ok (d : Driver) (gl gl1 : GLState) (vs fs : String)
    (p : ShaderProgram) (h : ShaderProgram.new d gl vs fs = (gl1, Except.ok p)) :
    gl1.programs = gl.programs + 1 ∧ gl1.buffers = gl.buffers ∧
    gl1.vertexArrays = gl.vertexArrays ∧ p.id = gl.programs + 1 ∧ p.hollow = false := by
  unfold ShaderProgram.new at h
  have c1 := loadAndCompileShader_counters d gl vs GL_VERTEX_SHADER
  rcases h1 : loadAndCompileShader d gl vs GL_VERTEX_SHADER with ⟨g1, e | v⟩
  · rw [h1] at h
    simp at h
  · rw [h1] at h c1
    simp only at h c1
    have c2 := loadAndCompileShader_counters d g1 fs GL_FRAGMENT_SHADER
    rcases h2 : loadAndCompileShader d g1 fs GL_FRAGMENT_SHADER with ⟨g2, e | f⟩
    · rw [h2] at h
      simp at h
    · rw [h2] at h c2
      simp only at h c2
      split_ifs at h
      · simp at h
      · simp only [Prod.mk.injEq, Except.ok.injEq] at h
        obtain ⟨hg, hp⟩ := h
        subst hg hp
        obtain ⟨a1, a2, a3⟩ := c1
        obtain ⟨b1, b2, b3⟩ := c2
        refine ⟨?_, ?_, ?_, ?_, ?_⟩ <;> simp [GLState.call, a1, a2, a3, b1, b2, b3]

theorem polyLine_prepare_first {K : Type} (d : Driver) (w : World K)
    (hn : w.polyLine.isPrepared = false) (h : (PolyLine.prepare d w).threw = none) :
    (PolyLine.prepare d w).state.gl.programs = w.gl.programs + 1 ∧
    (PolyLine.prepare d w).state.gl.buffers = w.gl.buffers + 1 ∧
    (PolyLine.prepare d w).state.gl.vertexArrays = w.gl.vertexArrays + 1 ∧
    (PolyLine.prepare d w).state.polyLine =
      ⟨true, ⟨w.gl.programs + 1, false⟩, w.gl.buffers + 1, w.gl.vertexArrays + 1⟩ ∧
    (PolyLine.prepare d w).state.skyBox = w.skyBox ∧
    (PolyLine.prepare d w).state.sphere = w.sphere := by
  unfold PolyLine.prepare at h ⊢
  simp only [hn, Bool.false_eq_true, if_false] at h ⊢
  rcases hnew : ShaderProgram.new d w.gl (w.resource_folder_dir ++ "polyline.vs")
      (w.resource_folder_dir ++ "polyline.fs") with ⟨gl, e | p⟩
  · rw [hnew] at h
    simp at h
  · obtain ⟨a1, a2, a3, a4, a5⟩ := shaderProgram_new_ok d w.gl gl _ _ p hnew
    obtain ⟨pid, ph⟩ := p
    simp only at a4 a5
    subst a4 a5
    refine ⟨?_, ?_, ?_, ?_, ?_, ?_⟩ <;>
      simp [glGenBuffers, glGenVertexArrays, GLState.call, ShaderProgram.use, a1, a2, a3]

theorem skyBox_prepare_first {K : Type} (d : Driver) (w : World K)
    (hn : w.skyBox.isPrepared = false) (h : (SkyBox.prepare d w).threw = none) :
    (SkyBox.prepare d w).state.gl.programs = w.gl.programs + 1 ∧
    (SkyBox.prepare d w).state.gl.buffers = w.gl.buffers + 1 ∧
    (SkyBox.prepare d w).state.gl.vertexArrays = w.gl.vertexArrays + 1 ∧
    (SkyBox.prepare d w).state.skyBox =
      ⟨true, ⟨w.gl.programs + 1, false⟩, w.gl.buffers + 1, w.gl.vertexArrays + 1⟩ ∧
    (SkyBox.prepare d w).state.polyLine = w.polyLine ∧
    (SkyBox.prepare d w).state.sphere = w.sphere := by
  unfold SkyBox.prepare at h ⊢
  simp only [hn, Bool.false_eq_true, if_false] at h ⊢
  rcases hnew : ShaderProgram.new d w.gl (w.resource_folder_dir ++ "skybox.vs")
      (w.resource_folder_dir ++ "skybox.fs") with ⟨gl, e | p⟩
  · rw [hnew] at h
    simp at h
  · obtain ⟨a1, a2, a3, a4, a5⟩ := shaderProgram_new_ok d w.gl gl _ _ p hnew
    obtain ⟨pid, ph⟩ := p
    simp only at a4 a5
    subst a4 a5
    refine ⟨?_, ?_, ?_, ?_, ?_, ?_⟩ <;>
      simp [glGenBuffers, glGenVertexArrays, GLState.call, ShaderProgram.use, a1, a2, a3]

theorem sphere_prepare_first {K : Type} [Field K] (L : Libm K) (d : Driver) (w : World K)
    (hn : w.sphere.isPrepared = false) (h : (Sphere.prepare L d w).threw = none) :
    (Sphere.prepare L d w).state.gl.programs = w.gl.programs + 1 ∧
    (Sphere.prepare L d w).state.gl.buffers = w.gl.buffers + 2 ∧
    (Sphere.prepare L d w).state.gl.vertexArrays = w.gl.vertexArrays + 1 ∧
    (Sphere.prepare L d w).state.sphere =
      { isPrepared := true
        vertices := generateVertices L 50 50 w.sphere.vertices
        vertex_indexes := generateTriangles 50 50 w.sphere.vertex_indexes
        parallel_count := 50
        meridian_count := 50
        shaderProgram := ⟨w.gl.programs + 1, false⟩
        vertex_buffer_obj := w.gl.buffers + 1
        vertex_array_obj := w.gl.vertexArrays + 1
        element_buffer_obj := w.gl.buffers + 2 } ∧
    (Sphere.prepare L d w).state.polyLine = w.polyLine ∧
    (Sphere.prepare L d w).state.skyBox = w.skyBox := by
  unfold Sphere.prepare at h ⊢
  simp only [hn, Bool.false_eq_true, if_false] at h ⊢
  rcases hnew : ShaderProgram.new d w.gl (w.resource_folder_dir ++ "sphere.vs")
      (w.resource_folder_dir ++ "sphere.fs") with ⟨gl, e | p⟩
  · rw [hnew] at h
    simp at h
  · obtain ⟨a1, a2, a3, a4, a5⟩ := shaderProgram_new_ok d w.gl gl _ _ p hnew
    obtain ⟨pid, ph⟩ := p
    simp only at a4 a5
    subst a4 a5
    refine ⟨?_, ?_, ?_, ?_, ?_, ?_⟩ <;>
      simp [glGenBuffers, glGenVertexArrays, GLState.call, ShaderProgram.use, a1, a2, a3]

/-- C14: for each of `Sphere`, `PolyLine` and `SkyBox`, with the shared state
modelled explicitly. (1) A first `prepare()` on an unprepared type that does not
throw allocates exactly one shader program and one vertex array, and one buffer
(two for `Sphere`: vertex and element buffer); it stores these fresh names in the
static members and sets `isPrepared`; for `Sphere` it sets both counts to 50 and
appends the generated vertices and indexes to the static lists; the static
members of the other two types are untouched. (2) A call to `prepare()` on a
prepared type returns at once: same state, nothing thrown. (3) Hence a second
call after a first one that did not throw leaves the whole state (driver state
with its allocation counters and call list, static members of all three
classes) as the first call left it: after two calls the counters stand where
one call put them, and the `Sphere` lists still are what one call made them. -/
theorem prepare_idempotent {K : Type} [Field K] (L : Libm K) (d : Driver) (w : World K) :
    ((w.sphere.isPrepared = false → (Sphere.prepare L d w).threw = none →
        ((Sphere.prepare L d w).state.gl.programs = w.gl.programs + 1 ∧
          (Sphere.prepare L d w).state.gl.buffers = w.gl.buffers + 2 ∧
          (Sphere.prepare L d w).state.gl.vertexArrays = w.gl.vertexArrays + 1 ∧
          (Sphere.prepare L d w).state.sphere =
            { isPrepared := true
              vertices := generateVertices L 50 50 w.sphere.vertices
              vertex_indexes := generateTriangles 50 50 w.sphere.vertex_indexes
              parallel_count := 50
              meridian_count := 50
              shaderProgram := ⟨w.gl.programs + 1, false⟩
              vertex_buffer_obj := w.gl.buffers + 1
              vertex_array_obj := w.gl.vertexArrays + 1
              element_buffer_obj := w.gl.buffers + 2 } ∧
          (Sphere.prepare L d w).state.polyLine = w.polyLine ∧
          (Sphere.prepare L d w).state.skyBox = w.skyBox) ∧
        ((Sphere.prepare L d (Sphere.prepare L d w).state).state.gl.programs =
            w.gl.programs + 1 ∧
          (Sphere.prepare L d (Sphere.prepare L d w).state).state.gl.buffers =
            w.gl.buffers + 2 ∧
          (Sphere.prepare L d (Sphere.prepare L d w).state).state.gl.vertexArrays =
            w.gl.vertexArrays + 1 ∧
          (Sphere.prepare L d (Sphere.prepare L d w).state).state.sphere.vertices =
            generateVertices L 50 50 w.sphere.vertices ∧
          (Sphere.prepare L d (Sphere.prepare L d w).state).state.sphere.vertex_indexes =
            generateTriangles 50 50 w.sphere.vertex_indexes)) ∧
      (w.sphere.isPrepared = true → Sphere.prepare L d w = ⟨w, none⟩) ∧
      ((Sphere.prepare L d w).threw = none →
        (Sphere.prepare L d w).state.sphere.isPrepared = true ∧
        Sphere.prepare L d (Sphere.prepare L d w).state =
          ⟨(Sphere.prepare L d w).state, none⟩ ∧
        (Sphere.prepare L d (Sphere.prepare L d w).state).state.gl =
          (Sphere.prepare L d w).state.gl ∧
        (Sphere.prepare L d (Sphere.prepare L d w).state).state.sphere.vertices.length =
          (Sphere.prepare L d w).state.sphere.vertices.length ∧
        (Sphere.prepare L d (Sphere.prepare L d w).state).state.sphere.vertex_indexes.length =
          (Sphere.prepare L d w).state.sphere.vertex_indexes.length)) ∧
    ((w.polyLine.isPrepared = false → (PolyLine.prepare d w).threw = none →
        ((PolyLine.prepare d w).state.gl.programs = w.gl.programs + 1 ∧
          (PolyLine.prepare d w).state.gl.buffers = w.gl.buffers + 1 ∧
          (PolyLine.prepare d w).state.gl.vertexArrays = w.gl.vertexArrays + 1 ∧
          (PolyLine.prepare d w).state.polyLine =
            ⟨true, ⟨w.gl.programs + 1, false⟩, w.gl.buffers + 1, w.gl.vertexArrays + 1⟩ ∧
          (PolyLine.prepare d w).state.skyBox = w.skyBox ∧
          (PolyLine.prepare d w).state.sphere = w.sphere) ∧
        ((PolyLine.prepare d (PolyLine.prepare d w).state).state.gl.programs =
            w.gl.programs + 1 ∧
          (PolyLine.prepare d (PolyLine.prepare d w).state).state.gl.buffers =
            w.gl.buffers + 1 ∧
          (PolyLine.prepare d (PolyLine.prepare d w).state).state.gl.vertexArrays =
            w.gl.vertexArrays + 1)) ∧
      (w.polyLine.isPrepared = true → PolyLine.prepare d w = ⟨w, none⟩) ∧
      ((PolyLine.prepare d w).threw = none →
        (PolyLine.prepare d w).state.polyLine.isPrepared = true ∧
        PolyLine.prepare d (PolyLine.prepare d w).state =
          ⟨(PolyLine.prepare d w).state, none⟩ ∧
        (PolyLine.prepare d (PolyLine.prepare d w).state).state.gl =
          (PolyLine.prepare d w).state.gl)) ∧
    ((w.skyBox.isPrepared = false → (SkyBox.prepare d w).threw = none →
        ((SkyBox.prepare d w).state.gl.programs = w.gl.programs + 1 ∧
          (SkyBox.prepare d w).state.gl.buffers = w.gl.buffers + 1 ∧
          (SkyBox.prepare d w).state.gl.vertexArrays = w.gl.vertexArrays + 1 ∧
          (SkyBox.prepare d w).state.skyBox =
            ⟨true, ⟨w.gl.programs + 1, false⟩, w.gl.buffers + 1, w.gl.vertexArrays + 1⟩ ∧
          (SkyBox.prepare d w).state.polyLine = w.polyLine ∧
          (SkyBox.prepare d w).state.sphere = w.sphere) ∧
        ((SkyBox.prepare d (SkyBox.prepare d w).state).state.gl.programs =
            w.gl.programs + 1 ∧
          (SkyBox.prepare d (SkyBox.prepare d w).state).state.gl.buffers =
            w.gl.buffers + 1 ∧
          (SkyBox.prepare d (SkyBox.prepare d w).state).state.gl.vertexArrays =
            w.gl.vertexArrays + 1)) ∧
      (w.skyBox.isPrepared = true → SkyBox.prepare d w = ⟨w, none⟩) ∧
      ((SkyBox.prepare d w).threw = none →
        (SkyBox.prepare d w).state.skyBox.isPrepared = true ∧
        SkyBox.prepare d (SkyBox.prepare d w).state =
          ⟨(SkyBox.prepare d w).state, none⟩ ∧
        (SkyBox.prepare d (SkyBox.prepare d w).state).state.gl =
          (SkyBox.prepare d w).state.gl)) := by
  refine ⟨⟨fun hn h => ?_, sphere_prepare_of_isPrepared L d w, fun h => ?_⟩,
    ⟨fun hn h => ?_, polyLine_prepare_of_isPrepared d w, fun h => ?_⟩,
    ⟨fun hn h => ?_, skyBox_prepare_of_isPrepared d w, fun h => ?_⟩⟩
  · have f := sphere_prepare_first L d w hn h
    have e := sphere_prepare_of_isPrepared L d _ (sphere_prepare_isPrepared L d w h)
    refine ⟨f, ?_⟩
    rw [e]
    refine ⟨f.1, f.2.1, f.2.2.1, ?_, ?_⟩
    · rw [f.2.2.2.1]
    · rw [f.2.2.2.1]
  · have e := sphere_prepare_of_isPrepared L d _ (sphere_prepare_isPrepared L d w h)
    rw [e]
    exact ⟨sphere_prepare_isPrepared L d w h, rfl, rfl, rfl, rfl⟩
  · have f := polyLine_prepare_first d w hn h
    have e := polyLine_prepare_of_isPrepared d _ (polyLine_prepare_isPrepared d w h)
    refine ⟨f, ?_⟩
    rw [e]
    exact ⟨f.1, f.2.1, f.2.2.1⟩
  · have e := polyLine_prepare_of_isPrepared d _ (polyLine_prepare_isPrepared d w h)
    rw [e]
    exact ⟨polyLine_prepare_isPrepared d w h, rfl, rfl⟩
  · have f := skyBox_prepare_first d w hn h
    have e := skyBox_prepare_of_isPrepared d _ (skyBox_prepare_isPrepared d w h)
    refine ⟨f, ?_⟩
    rw [e]
    exact ⟨f.1, f.2.1, f.2.2.1⟩
  · have e := skyBox_prepare_of_isPrepared d _ (skyBox_prepare_isPrepared d w h)
    rw [e]
    exact ⟨skyBox_prepare_isPrepared d w h, rfl, rfl⟩

/-- Witness for C14: from the state at program start, in an environment where
the shader files load, compile and link, the first `prepare()` of each class
does not throw; after two calls of `Sphere::prepare` one program, two buffers
and one vertex array have been allocated in all and the lists hold 2500 vertices
and 14112 indexes; after two calls of `PolyLine::prepare` or of
`SkyBox::prepare`, one program, one buffer and one vertex array. -/
theorem prepare_idempotent_witness :
    ((World.initial ℝ "src/").sphere.isPrepared = false ∧
      (Sphere.prepare realLibm Driver.allGood (World.initial ℝ "src/")).threw = none ∧
      (Sphere.prepare realLibm Driver.allGood
          (Sphere.prepare realLibm Driver.allGood (World.initial ℝ "src/")).state).state.gl.programs
        = 1 ∧
      (Sphere.prepare realLibm Driver.allGood
          (Sphere.prepare realLibm Driver.allGood (World.initial ℝ "src/")).state).state.gl.buffers
        = 2 ∧
      (Sphere.prepare realLibm Driver.allGood
          (Sphere.prepare realLibm Driver.allGood
            (World.initial ℝ "src/")).state).state.gl.vertexArrays = 1 ∧
      (Sphere.prepare realLibm Driver.allGood
          (Sphere.prepare realLibm Driver.allGood
            (World.initial ℝ "src/")).state).state.sphere.vertices.length = 2500 ∧
      (Sphere.prepare realLibm Driver.allGood
          (Sphere.prepare realLibm Driver.allGood
            (World.initial ℝ "src/")).state).state.sphere.vertex_indexes.length = 14112) ∧
    ((World.initial ℝ "src/").polyLine.isPrepared = false ∧
      (PolyLine.prepare Driver.allGood (World.initial ℝ "src/")).threw = none ∧
      (PolyLine.prepare Driver.allGood (World.initial ℝ "src/")).state.polyLine =
        ⟨true, ⟨1, false⟩, 1, 1⟩ ∧
      (PolyLine.prepare Driver.allGood
          (PolyLine.prepare Driver.allGood (World.initial ℝ "src/")).state).state.gl.buffers
        = 1) ∧
    ((World.initial ℝ "src/").skyBox.isPrepared = false ∧
      (SkyBox.prepare Driver.allGood (World.initial ℝ "src/")).threw = none ∧
      (SkyBox.prepare Driver.allGood (World.initial ℝ "src/")).state.skyBox =
        ⟨true, ⟨1, false⟩, 1, 1⟩ ∧
      (SkyBox.prepare Driver.allGood
          (SkyBox.prepare Driver.allGood (World.initial ℝ "src/")).state).state.gl.buffers
        = 1) :=
  have hs := ((prepare_idempotent realLibm Driver.allGood (World.initial ℝ "src/")).1.1
    rfl (sphere_prepare_initial_ok _)).2
  have hp := (prepare_idempotent realLibm Driver.allGood (World.initial ℝ "src/")).2.1.1
    rfl (polyLine_prepare_initial_ok _)
  have hk := (prepare_idempotent realLibm Driver.allGood (World.initial ℝ "src/")).2.2.1
    rfl (skyBox_prepare_initial_ok _)
  ⟨⟨rfl, sphere_prepare_initial_ok _, hs.1, hs.2.1, hs.2.2.1,
      by
        rw [hs.2.2.2.1]
        have h := generateVertices_length realLibm 50 50 (by decide) (by decide)
        exact_mod_cast h,
      by
        rw [hs.2.2.2.2]
        exact generateTriangles_length 50 50 (by decide) []⟩,
    ⟨rfl, polyLine_prepare_initial_ok _, hp.1.2.2.2.1, hp.2.2.1⟩,
    ⟨rfl, skyBox_prepare_initial_ok _, hk.1.2.2.2.1, hk.2.2.1⟩⟩

end TwoBody
